import Mathlib

/-!
A shallow embedding of the bigeasy paxos citizen (the `_minimums`/`_committed`
variant of `paxos.js`, together with `writer.js`) and proofs about the
behaviour of its operations.  Promises `g/r` are represented as pairs of
naturals compared lexicographically, which is isomorphic to the canonical
monotonic strings the source uses.  JavaScript assertion failures and type
errors are represented by `Except.error`; every operation that can abort
returns `Except String _`.
-/

set_option maxRecDepth 4000
set_option linter.unusedVariables false

/-- A promise `g/r`: government (major) and round (minor) number. -/
structure Promise where
  g : Nat
  r : Nat
deriving DecidableEq, Repr

/-- The null promise `0/0`. -/
def p00 : Promise := ⟨0, 0⟩

/-- Lexicographic strict order on promises (`Monotonic.compare(a, b) < 0`). -/
def Promise.lt (a b : Promise) : Prop :=
  a.g < b.g ∨ (a.g = b.g ∧ a.r < b.r)

instance : LT Promise := ⟨Promise.lt⟩

instance (a b : Promise) : Decidable (a < b) :=
  inferInstanceAs (Decidable (a.g < b.g ∨ (a.g = b.g ∧ a.r < b.r)))

/-- `a ≤ b` on promises (`Monotonic.compare(a, b) <= 0`). -/
def Promise.le (a b : Promise) : Prop := a < b ∨ a = b

instance : LE Promise := ⟨Promise.le⟩

instance (a b : Promise) : Decidable (a ≤ b) :=
  inferInstanceAs (Decidable (a < b ∨ a = b))

theorem Promise.lt_def (a b : Promise) :
    (a < b) = (a.g < b.g ∨ (a.g = b.g ∧ a.r < b.r)) := rfl

theorem Promise.le_def (a b : Promise) : (a ≤ b) = (a < b ∨ a = b) := rfl

theorem Promise.ext_gr {a b : Promise} (hg : a.g = b.g) (hr : a.r = b.r) :
    a = b := by
  cases a; cases b; simp_all

theorem Promise.lt_irrefl (a : Promise) : ¬ a < a := by
  simp [Promise.lt_def]

theorem Promise.lt_trans {a b c : Promise} (h1 : a < b) (h2 : b < c) :
    a < c := by
  rcases h1 with h1 | ⟨h1g, h1r⟩ <;> rcases h2 with h2 | ⟨h2g, h2r⟩ <;>
    simp only [Promise.lt_def] <;> omega

theorem Promise.le_trans {a b c : Promise} (h1 : a ≤ b) (h2 : b ≤ c) :
    a ≤ c := by
  rcases h1 with h1 | rfl
  · rcases h2 with h2 | rfl
    · exact Or.inl (Promise.lt_trans h1 h2)
    · exact Or.inl h1
  · exact h2

theorem Promise.lt_of_le_of_lt {a b c : Promise} (h1 : a ≤ b) (h2 : b < c) :
    a < c := by
  rcases h1 with h1 | rfl
  · exact Promise.lt_trans h1 h2
  · exact h2

theorem Promise.not_lt_of_lt {a b : Promise} (h : a < b) : ¬ b < a := by
  rcases h with h | ⟨hg, hr⟩ <;> simp only [Promise.lt_def] <;> omega

theorem Promise.lt_or_ge (a b : Promise) : a < b ∨ b ≤ a := by
  by_cases hg : a.g < b.g
  · exact Or.inl (Or.inl hg)
  · by_cases he : a.g = b.g
    · by_cases hr : a.r < b.r
      · exact Or.inl (Or.inr ⟨he, hr⟩)
      · right
        by_cases hre : a.r = b.r
        · exact Or.inr (Promise.ext_gr he.symm hre.symm)
        · exact Or.inl (Or.inr ⟨he.symm, by omega⟩)
    · exact Or.inr (Or.inl (Or.inl (by omega)))

/-- `Monotonic.increment(p, 0)`: bump the government part, reset the round. -/
def Monotonic.incrementMajor (p : Promise) : Promise := ⟨p.g + 1, 0⟩

/-- `Monotonic.increment(p, 1)`: bump the round part. -/
def Monotonic.incrementMinor (p : Promise) : Promise := ⟨p.g, p.r + 1⟩

/-- `Monotonic.isBoundary(p, 0)`: the round part is zero. -/
def Monotonic.isBoundary (p : Promise) : Bool := p.r == 0

theorem Monotonic.lt_incrementMinor (p : Promise) :
    p < Monotonic.incrementMinor p := Or.inr ⟨rfl, Nat.lt_succ_self p.r⟩

theorem Monotonic.lt_of_boundary_previous {prev p : Promise}
    (h : p = Monotonic.incrementMajor prev) : prev < p := by
  subst h; exact Or.inl (Nat.lt_succ_self prev.g)

/-- An immigration record `{ id, cookie, properties }`. -/
structure ImmigrateRec where
  id : String
  cookie : Nat
  properties : String
deriving DecidableEq, Repr

/-- An exile record; `newGovernment` receives a bare id and rewrites it into
a full record, so the field is a sum of the two shapes. -/
structure ExileRec where
  id : String
  promise : Option Promise
  properties : Option String
deriving DecidableEq, Repr

inductive ExileVal where
  | byId : String → ExileVal
  | full : ExileRec → ExileVal
deriving DecidableEq, Repr

/-- The `immigrated` bijection `{ promise: id→promise, id: promise→id }`. -/
structure Immigrated where
  promise : List (String × Promise)
  id : List (Promise × String)
deriving DecidableEq, Repr

/-- A government value as stored in a government log entry. -/
structure Government where
  promise : Promise
  majority : List String
  minority : List String
  constituents : List String
  properties : List (String × String)
  immigrated : Immigrated
  map : Option (List (Promise × Promise))
  immigrate : Option ImmigrateRec
  exile : Option ExileVal
deriving DecidableEq, Repr

/-- A log-entry body: either a government or an opaque user message. -/
inductive EBody where
  | gov : Government → EBody
  | user : String → EBody
deriving DecidableEq, Repr

/-- `entry.body.immigrate` — JavaScript property access returns `undefined`
on a user body. -/
def immigrateOf : EBody → Option ImmigrateRec
  | EBody.gov g => g.immigrate
  | EBody.user _ => none

/-- `entry.body` when a government is expected (`this.government = entry.body`). -/
def govOf : EBody → Option Government
  | EBody.gov g => some g
  | EBody.user _ => none

/-- An entry as it sits in the atomic log. The initial null-government entry
has `previous = none`. -/
structure LogEntry where
  method : String
  promise : Promise
  body : EBody
  previous : Option Promise
deriving DecidableEq, Repr

/-- An entry as carried in a `sync.commits` batch. -/
structure WireEntry where
  promise : Promise
  body : EBody
  previous : Promise
deriving DecidableEq, Repr

/-- Conversion performed by `_commit` when pushing a received entry. -/
def WireEntry.toLog (isGovernment : Bool) (e : WireEntry) : LogEntry :=
  ⟨if isGovernment then "government" else "entry", e.promise, e.body, some e.previous⟩

/-- The minimum triple `{ propagated, version, reduced }`. -/
structure Minimum where
  propagated : Promise
  version : Promise
  reduced : Promise
deriving DecidableEq, Repr

/-- A queued proposal. `Writer.push` reads `this._paxos.majority`, a property
the `Paxos` constructor never defines, so a pushed proposal's quorum is
`undefined` — represented as `none`. -/
structure Proposal where
  quorum : Option (List String)
  promise : Promise
  body : EBody
  was : Option Promise
  route : Option (List String)
deriving DecidableEq, Repr

/-- One message inside an outgoing request (`write` or `commit`). -/
structure WMsg where
  method : String
  promise : Promise
  body : Option EBody
deriving DecidableEq, Repr

/-- `message.version` is either a government promise (synchronize messages)
or the writer's `[promise, collapsed]` pair (write/commit rounds). -/
inductive MVersion where
  | prom : Promise → MVersion
  | pair : Promise → Bool → MVersion
deriving DecidableEq, Repr

/-- An outbound message as assembled by the citizen or its writer. -/
structure OutMessage where
  method : String
  version : MVersion
  to_ : Option (List String)
  messages : List WMsg
  collapsible : Bool
  constituent : Bool
  key : String
deriving DecidableEq, Repr

/-- The sync segment attached to every outgoing request. -/
structure SyncMsg where
  republic : String
  promise : Option Promise
  from_ : String
  minimum : Minimum
  committed : Promise
  commits : List WireEntry
deriving DecidableEq, Repr

/-- The sync segment of a response; `committed` is `null` on the refactored
network-failure default. -/
structure RespSync where
  committed : Option Promise
  commits : List WireEntry
deriving DecidableEq, Repr

/-- A reply message `{ method, promise? }`. -/
structure RMsg where
  method : String
  promise : Option Promise
deriving DecidableEq, Repr

/-- A full response `{ message, sync, minimum, unreachable }`. -/
structure Response where
  message : RMsg
  sync : RespSync
  minimum : Option Minimum
  unreachable : List Promise
deriving DecidableEq, Repr

/-- A scheduler event body. -/
structure SchedEvent where
  method : String
  to_ : List String
  collapsible : Bool
deriving DecidableEq, Repr

/-- An incoming request `{ message, sync }`. -/
structure Request where
  message : OutMessage
  sync : SyncMsg
deriving DecidableEq, Repr

/-- The writer slot is polymorphic: a two-phase `Writer` or, after collapse,
a Paxos `Proposer`. -/
inductive WriterKind where
  | writer
  | proposer
deriving DecidableEq, Repr

/-- The writer/proposer state. `version = [promise, collapsed]`. -/
structure WriterSt where
  kind : WriterKind
  promise : Promise
  collapsed : Bool
  proposals : List Proposal
  writing : List Proposal
deriving DecidableEq, Repr

/-- The recorder/acceptor slot. -/
inductive RecorderKind where
  | recorder
  | acceptor
deriving DecidableEq, Repr

structure RecorderSt where
  kind : RecorderKind
  promise : Promise
  register : List WireEntry
deriving DecidableEq, Repr

/-- Modelled from the spec: `shaper.js` is not under `src/`.  The shaper is an
advisory planner holding a `decided` latch and the queue of pending
immigrations; this model uses the no-op (relay) emission policy that the
spec gives for non-leaders, which suffices because no claim settled here
depends on an actual shape emission. -/
structure ShaperSt where
  parliamentSize : Nat
  decided : Bool
  _immigrating : List ImmigrateRec
deriving DecidableEq, Repr

/-- Modelled from the spec: the shaper records an immigration request and may
emit a shape; the relay policy emits nothing. -/
def shaperImmigrate (sh : ShaperSt) (rec : ImmigrateRec) : ShaperSt :=
  { sh with _immigrating := sh._immigrating ++ [rec] }

/-- Modelled from the spec: `shaper.immigrated(id)` marks a completed
immigration, clearing its pending record. -/
def shaperImmigrated (sh : ShaperSt) (id : String) : ShaperSt :=
  { sh with _immigrating := sh._immigrating.filter (fun r => r.id ≠ id) }

/-- An envelope in the outbox. -/
structure Envelope where
  to_ : String
  message : OutMessage
  sync : SyncMsg
deriving DecidableEq, Repr

structure OutboxItem where
  message : OutMessage
  envelopes : List Envelope
deriving DecidableEq, Repr

/-- The result object of `enqueue`. -/
structure EnqueueResult where
  enqueued : Bool
  republic : Option String
  leader : Option String
  promise : Option Promise
deriving DecidableEq, Repr

/-- The whole citizen state (`Paxos` instance of the second source variant). -/
structure Citizen where
  id : String
  cookie : Nat
  republic : String
  parliamentSize : Nat
  ping : Nat
  timeout : Nat
  window : List LogEntry
  head : LogEntry
  scheduler : List (String × Nat × SchedEvent)
  government : Government
  _promised : Option Promise
  constituency : List String
  citizens : List String
  _committed : List (Promise × Promise)
  _minimum : Minimum
  _minimums : List (String × Minimum)
  outbox : List OutboxItem
  _writer : WriterSt
  _recorder : RecorderSt
  _shaper : ShaperSt
  _seed : Nat
  _disappeared : List (Promise × Nat)
  _unreachable : List Promise
deriving DecidableEq, Repr

/-- First-match association lookup (JavaScript object read). -/
def alookup {α β : Type} [DecidableEq α] : List (α × β) → α → Option β
  | [], _ => none
  | (k, v) :: rest, k' => if k = k' then some v else alookup rest k'

/-- Association update (JavaScript object write: replace or append). -/
def aset {α β : Type} [DecidableEq α] : List (α × β) → α → β → List (α × β)
  | [], k, v => [(k, v)]
  | (k0, v0) :: rest, k, v =>
    if k0 = k then (k, v) :: rest else (k0, v0) :: aset rest k v

/-- Association removal (JavaScript `delete`). -/
def aremove {α β : Type} [DecidableEq α] (l : List (α × β)) (k : α) :
    List (α × β) :=
  l.filter (fun p => p.1 ≠ k)

/-- `scheduler.schedule(when, key, event)`: replaces any event for `key`. -/
def schedWrite (sch : List (String × Nat × SchedEvent)) (key : String)
    (when : Nat) (ev : SchedEvent) : List (String × Nat × SchedEvent) :=
  aset sch key (when, ev)

/-- `scheduler.unschedule(key)`. -/
def schedRemove (sch : List (String × Nat × SchedEvent)) (key : String) :
    List (String × Nat × SchedEvent) :=
  aremove sch key

/-- The prototype methods `paxos.js` defines on `Paxos`.  Used to model
JavaScript dynamic dispatch: `Writer.response` invokes `this._paxos.collapse`,
and whether that property exists decides between a call and a `TypeError`. -/
def paxosPrototypeMethods : List String :=
  ["newGovernment", "bootstrap", "_enqueuable", "enqueue", "immigrate",
   "event", "_prepare", "_collapse", "_propose", "_findRound", "_sync",
   "_send", "request", "response", "_register", "_synchronize", "_reshape",
   "_commit"]

/-- First occurrence of an entry with the sought promise (`_findRound`). -/
def findRoundEntry : List LogEntry → Promise → Option LogEntry
  | [], _ => none
  | e :: rest, c => if e.promise = c then some e else findRoundEntry rest c

/-- The log suffix strictly after the entry with the sought promise
(`this._findRound(committed).next` onward). -/
def findRoundAfter : List LogEntry → Promise → Option (List LogEntry)
  | [], _ => none
  | e :: rest, c => if e.promise = c then some rest else findRoundAfter rest c

/-- The log suffix starting at the first government boundary entry whose
immigrate record names `id` (the `committed == 0/0` search in `_sync`). -/
def immigrateIdIs (b : EBody) (id : String) : Bool :=
  match immigrateOf b with
  | some im => im.id == id
  | none => false

def findImmigration (id : String) : List LogEntry → Option (List LogEntry)
  | [] => none
  | e :: rest =>
    if Monotonic.isBoundary e.promise = true ∧ immigrateIdIs e.body id = true then
      some (e :: rest)
    else findImmigration id rest

/-- Package log entries as wire commits; the `--count` prefix decrement in
`_sync` pushes at most `count - 1` entries. -/
def takeCommits (l : List LogEntry) (n : Nat) : List WireEntry :=
  (l.take n).map (fun e => ⟨e.promise, e.body, e.previous.getD p00⟩)

/-- The sync skeleton every branch of `_sync`, `_send` and `request` builds. -/
def mkSyncBase (s : Citizen) : SyncMsg :=
  ⟨s.republic, alookup s.government.immigrated.promise s.id, s.id,
   s._minimum, s.head.promise, []⟩

/-- `Paxos.prototype._sync(id, committed, count)`. -/
def paxosSyncFor (s : Citizen) (id : String) (committed : Option Promise)
    (count : Nat) : Except String SyncMsg :=
  let base := mkSyncBase s
  match committed with
  | none => Except.ok base
  | some c =>
    if c = p00 then
      match findImmigration id s.window with
      | none => Except.error "immigration missing"
      | some suffix => Except.ok {base with commits := takeCommits suffix (count - 1)}
    else if ¬ (s._minimum.propagated ≤ c) then Except.error "minimum breached"
    else if ¬ (c ≤ s.head.promise) then Except.error "maximum breached"
    else
      match findRoundAfter s.window c with
      | none => Except.error "TypeError next of undefined findRound"
      | some after => Except.ok {base with commits := takeCommits after (count - 1)}

/-- The per-recipient body of `Paxos.prototype._send`: unschedule the
recipient and assemble its envelope. -/
def paxosSendLoop (message : OutMessage) :
    Citizen → List String → Except String (Citizen × List Envelope)
  | s, [] => Except.ok (s, [])
  | s, id :: rest => do
    let s1 := {s with scheduler := schedRemove s.scheduler id}
    let sync ← paxosSyncFor s1 id
      ((alookup s1.government.immigrated.promise id).bind (alookup s1._committed)) 24
    let (s2, envs) ← paxosSendLoop message s1 rest
    Except.ok (s2, ⟨id, message, sync⟩ :: envs)

/-- `Paxos.prototype._send(message)`.  Iterating `message.to` when the writer
supplied an undefined quorum throws. -/
def paxosSend (s : Citizen) (message : OutMessage) : Except String Citizen := do
  match message.to_ with
  | none => Except.error "TypeError cannot iterate undefined to"
  | some ids => do
    let (s1, envs) ← paxosSendLoop message s ids
    Except.ok {s1 with outbox := s1.outbox ++ [⟨message, envs⟩]}

/-- `Paxos.prototype._propose(now, retry)`: schedule the next Paxos round,
with pseudo-random backoff for retrying non-leaders. -/
def paxosPropose (now : Nat) (retry : Bool) (s : Citizen) : Citizen :=
  if retry = true ∧ s.government.majority.head? ≠ some s.id then
    let seed := s._seed * 16807 % 2147483647
    {s with _seed := seed,
            scheduler := schedWrite s.scheduler s.id (now + seed % s.timeout)
              ⟨"propose", [], false⟩}
  else
    {s with scheduler := schedWrite s.scheduler s.id now ⟨"propose", [], false⟩}

/-- `Paxos.prototype._collapse(now)`: clear the scheduler, replace the writer
with a Proposer (proposer.js is not under src/; modelled from the spec as the
collapsed variant of the writer slot bound to the current government promise)
and schedule a proposal. -/
def paxosCollapse (now : Nat) (s : Citizen) : Citizen :=
  let s1 := {s with scheduler := [],
                    _writer := ⟨WriterKind.proposer, s.government.promise, true, [], []⟩}
  paxosPropose now false s1

/-- `Writer.prototype.push`: the queued proposal takes
`quorum = this._paxos.majority` — a property `Paxos` never defines, hence
`none` — and a freshly re-incremented `_promised`, ignoring the promise the
caller assigned. -/
def paxosWriterPush (s : Citizen) (body : EBody) : Except String Citizen :=
  match s._promised with
  | none => Except.error "TypeError increment of null promised"
  | some p =>
    let p2 := Monotonic.incrementMinor p
    Except.ok {s with
      _promised := some p2,
      _writer := {s._writer with
        proposals := s._writer.proposals ++ [⟨none, p2, body, none, none⟩]}}

/-- `Writer.prototype.unshift`: prepend a proposal (used for governments). -/
def writerUnshift (s : Citizen) (pr : Proposal) : Citizen :=
  {s with _writer := {s._writer with
    proposals := (⟨pr.quorum, pr.promise, pr.body, none, none⟩ : Proposal)
      :: s._writer.proposals}}

/-- `Writer.prototype.nudge`: when nothing is in flight and the queue is
non-empty, move the head proposal into `_writing` and send its write. -/
def paxosWriterNudge (s : Citizen) : Except String Citizen :=
  match s._writer.writing, s._writer.proposals with
  | [], p :: rest =>
    let s1 := {s with _writer := {s._writer with writing := [p], proposals := rest}}
    paxosSend s1 ⟨"write", MVersion.pair s1._writer.promise s1._writer.collapsed,
      p.quorum, [⟨"write", p.promise, some p.body⟩], false, false, ""⟩
  | _, _ => Except.ok s

/-- The per-message loop of `Writer.prototype.response` for a null rejection
promise: a `write` reply turns the in-flight slot into a `commit` round and
may piggyback the next queued proposal when neither the in-flight nor the
queued promise is a government boundary; a `commit` reply pops the slot and
nudges. -/
def writerRespondMsgs (now : Nat) : Citizen → List WMsg → Except String Citizen
  | s, [] => Except.ok s
  | s, m :: rest =>
    match m.method with
    | "write" =>
      match s._writer.writing with
      | [] => Except.error "TypeError writing empty"
      | w0 :: _ => do
        let base : OutMessage :=
          ⟨"write", MVersion.pair s._writer.promise s._writer.collapsed,
           w0.quorum, [⟨"commit", w0.promise, none⟩], false, false, ""⟩
        let (s1, req) :=
          match s._writer.proposals with
          | p :: ps =>
            if Monotonic.isBoundary w0.promise = false ∧
                Monotonic.isBoundary p.promise = false then
              ({s with _writer := {s._writer with
                  writing := s._writer.writing ++ [p], proposals := ps}},
               {base with messages := base.messages ++ [⟨"write", p.promise, some p.body⟩]})
            else (s, base)
          | [] => (s, base)
        let s2 ← paxosSend s1 req
        writerRespondMsgs now s2 rest
    | "commit" => do
      let s1 := {s with _writer := {s._writer with writing := s._writer.writing.tail}}
      let s2 ← paxosWriterNudge s1
      writerRespondMsgs now s2 rest
    | _ => writerRespondMsgs now s rest

/-- `Writer.prototype.response(now, request, responses, promise)`.  On a
non-null rejection promise it invokes `this._paxos.collapse(now)`; whether
`Paxos` has a `collapse` prototype method decides between that call and a
`TypeError`. -/
def writerResponse (now : Nat) (s : Citizen) (request : OutMessage)
    (promise : Option Promise) : Except String Citizen :=
  match promise with
  | some _ =>
    if paxosPrototypeMethods.contains "collapse" then
      Except.ok (paxosCollapse now s)
    else
      Except.error "TypeError this paxos collapse is not a function"
  | none => writerRespondMsgs now s request.messages

/-- Modelled from the spec: proposer.js is not under src/.  §4.5: the
proposer drives prepare/accept/learn on a fresh government promise and, on a
rejection or a missed response, retries through the backoff path
(`_propose` with retry), which is the only proposer behaviour any claim here
exercises. -/
def proposerResponse (now : Nat) (s : Citizen) (message : OutMessage)
    (responses : String → Option Response) : Except String Citizen :=
  let failed := (message.to_.getD []).any (fun id =>
    (responses id).isNone ||
      (match responses id with
       | some r => r.message.method == "reject" || r.message.method == "unreachable"
       | none => true))
  if failed then Except.ok (paxosPropose now true s) else Except.ok s

/-- `Writer.prototype.createWriter` returns `this`, keeping the old version;
`Proposer.createWriter` (proposer.js is not under src/) is modelled from the
spec (§4.8): a fresh writer bound to the new government promise. -/
def writerCreateWriter (w : WriterSt) (promise : Promise) : WriterSt :=
  match w.kind with
  | WriterKind.writer => w
  | WriterKind.proposer => ⟨WriterKind.writer, promise, false, [], []⟩

/-- Index-share of the next tier used by the constituency computation. -/
def shareOf (l : List String) (i n : Nat) : List String :=
  (l.enum.filter (fun p => p.1 % n = i)).map Prod.snd

/-- Modelled from the spec: constituency.js is not under src/.  GLOSSARY: the
leader fans out to the rest of the majority, majority members to the
minority, and minority members to the constituents; each member takes its
index share, in order, of the next tier. -/
def constituencyOf (g : Government) (id : String) : List String :=
  if g.majority.head? = some id then g.majority.tail
  else if g.majority.tail.contains id then
    shareOf g.minority (g.majority.tail.indexOf id) g.majority.tail.length
  else if g.minority.contains id then
    shareOf g.constituents (g.minority.indexOf id) g.minority.length
  else []

/-- The government-enactment block of `Paxos.prototype._commit`. -/
def enactGovernment (now : Nat) (s : Citizen) (entry : WireEntry) :
    Except String Citizen :=
  if ¬ (s.government.promise < entry.promise) then
    Except.error "governments out of order"
  else
    match govOf entry.body with
    | none => Except.error "TypeError government entry with non-government body"
    | some gov =>
      let s := {s with scheduler := [], government := gov}
      let s :=
        if gov.map = none then
          let proms := (gov.majority ++ gov.minority).filterMap
            (alookup gov.immigrated.promise)
          {s with _unreachable := s._unreachable.filter (fun u => ¬ proms.contains u)}
        else s
      let s := {s with
        constituency := constituencyOf gov s.id,
        citizens := gov.majority ++ gov.minority ++ gov.constituents}
      let s := {s with
        _writer := writerCreateWriter s._writer entry.promise,
        _recorder := ⟨RecorderKind.recorder, entry.promise, []⟩}
      let s :=
        if gov.majority.head? = some s.id then
          let sh0 : ShaperSt := ⟨s.parliamentSize, false, []⟩
          let sh1 := s._shaper._immigrating.foldl shaperImmigrate sh0
          let sh2 :=
            match gov.immigrate with
            | some im => shaperImmigrated sh1 im.id
            | none => sh1
          {s with _shaper := sh2}
        else
          {s with _shaper := ⟨s.parliamentSize, false, []⟩}
      let s :=
        if gov.majority.contains s.id then
          let sch := schedWrite s.scheduler s.id (now + s.ping) ⟨"collapse", [], false⟩
          {s with scheduler := sch}
        else s
      let s := {s with _minimum :=
        ⟨s._minimum.propagated, gov.promise, s._minimum.reduced⟩}
      let s := {s with
        _minimums := s.constituency.filterMap
          (fun id => (alookup s._minimums id).map (fun m => (id, m))),
        _committed := s.constituency.filterMap
          (fun id => (alookup gov.immigrated.promise id).bind
            (fun pr => (alookup s._committed pr).map (fun c => (pr, c))))}
      Except.ok s

/-- The tail of `_commit` after the government enactment block: update the
reduced minimum for childless citizens, push the entry, and schedule the
constituent synchronization fan-out. -/
def commitFinish (now : Nat) (isGovernment : Bool) (entry : WireEntry)
    (s0 : Citizen) : Citizen :=
  let s1 :=
    if s0.constituency = [] then
      {s0 with _minimum := {s0._minimum with reduced := entry.promise}}
    else s0
  let le := WireEntry.toLog isGovernment entry
  let s2 := {s1 with window := s1.window ++ [le], head := le}
  if s2.government.majority.head? ≠ some s2.id ∨ s2.government.majority.length = 1 then
    let sch := s2.constituency.foldl
      (fun sch id => schedWrite sch id now ⟨"synchronize", [id], false⟩)
      s2.scheduler
    {s2 with scheduler := sch}
  else s2

/-- `Paxos.prototype._commit(now, entry, top)`. -/
def paxosCommit (now : Nat) (s : Citizen) (entry : WireEntry) (top : Promise) :
    Except String Citizen :=
  if entry.promise ≤ top then
    -- Re-delivery: the value is invariant, assert the copies agree.
    if s._minimum.propagated ≤ entry.promise then
      match findRoundEntry s.window entry.promise with
      | none => Except.error "TypeError findRound of missing entry"
      | some e =>
        if e.body = entry.body then Except.ok s
        else Except.error "departure raise"
    else Except.ok s
  else if top ≠ entry.previous then Except.error "incorrect previous"
  else
    let isGovernment := Monotonic.isBoundary entry.promise
    if ¬ (isGovernment = true ∨ Monotonic.incrementMinor top = entry.promise) then
      Except.error "assert increment minor"
    else
      (if isGovernment = true then enactGovernment now s entry
       else Except.ok s).bind
        (fun s => Except.ok (commitFinish now isGovernment entry s))

/-- Commit a batch in order, re-reading the head as `top` after each entry
(the loop body of `_synchronize` and of `_register`). -/
def commitList (now : Nat) : Citizen → Promise → List WireEntry → Except String Citizen
  | s, _, [] => Except.ok s
  | s, top, e :: rest => do
    let s' ← paxosCommit now s e top
    commitList now s' s'.head.promise rest

/-- `Paxos.prototype._synchronize(now, entries)`. -/
def paxosSynchronize (now : Nat) (s : Citizen) (entries : List WireEntry) :
    Except String (Bool × Citizen) :=
  match entries with
  | [] => Except.ok (true, s)
  | e0 :: _ =>
    if s.head.promise = p00 then
      match immigrateOf e0.body with
      | none => Except.ok (false, s)
      | some im =>
        if Monotonic.isBoundary e0.promise = false ∨ im.id ≠ s.id ∨ im.cookie ≠ s.cookie then
          Except.ok (false, s)
        else do
          let s' ← commitList now s e0.previous entries
          Except.ok (true, s')
    else do
      let s' ← commitList now s s.head.promise entries
      Except.ok (true, s')

/-- `Paxos.prototype._register(now, register)`: replay a register chain,
oldest first, committing each entry against the current head. -/
def paxosRegister (now : Nat) (s : Citizen) (register : List WireEntry) :
    Except String Citizen :=
  commitList now s s.head.promise register

/-- Modelled from the spec: recorder.js and acceptor.js are not under src/.
§4.4: the recorder accepts `write` from the current leader version, producing
a provisional entry, and `commit`, which finalizes it through the citizen
commit path (`_register`); a `prepare` converts it into an acceptor; writes
whose version does not match the currently enacted government are rejected. -/
def recorderMsgs (now : Nat) : Citizen → List WMsg → Except String Citizen
  | s, [] => Except.ok s
  | s, m :: rest =>
    match m.method with
    | "write" =>
      let e : WireEntry := ⟨m.promise, (m.body).getD (EBody.user ""), s.head.promise⟩
      recorderMsgs now {s with _recorder := {s._recorder with register := [e]}} rest
    | "commit" =>
      match s._recorder.register.find? (fun e => e.promise == m.promise) with
      | none => Except.error "commit without provisional write"
      | some e => do
        let s1 := {s with _recorder := {s._recorder with register := []}}
        let s2 ← paxosRegister now s1 [e]
        recorderMsgs now s2 rest
    | _ => recorderMsgs now s rest

/-- Modelled from the spec: the request side of the recorder/acceptor slot. -/
def recorderRequest (now : Nat) (s : Citizen) (msg : OutMessage) :
    Except String (RMsg × Citizen) :=
  match msg.method, msg.version with
  | "write", MVersion.pair p c =>
    if p = s._recorder.promise ∧ c = false then do
      let s' ← recorderMsgs now s msg.messages
      Except.ok (⟨"respond", some s'.head.promise⟩, s')
    else
      Except.ok (⟨"reject", some s.head.promise⟩, s)
  | "prepare", _ =>
    Except.ok (⟨"promise", some s._recorder.promise⟩,
      {s with _recorder := {s._recorder with kind := RecorderKind.acceptor}})
  | _, _ => Except.ok (⟨"reject", some s.head.promise⟩, s)

/-- The trailer-shift loop of `request`:
`while (compare(trailer.peek().promise, propagated) < 0) trailer.shift()`.
Peeking an exhausted trailer throws. -/
def shiftWhile : List LogEntry → Promise → Except String (List LogEntry × List LogEntry)
  | [], _ => Except.error "TypeError trailer peek of empty window"
  | e :: rest, p =>
    if e.promise < p then do
      let (d, r) ← shiftWhile rest p
      Except.ok (e :: d, r)
    else Except.ok ([], e :: rest)

/-- The reply object of `Paxos.prototype.request`. -/
structure Reply where
  message : RMsg
  sync : SyncMsg
  minimum : Minimum
  unreachable : List Promise
deriving DecidableEq, Repr

/-- The tail of `Paxos.prototype.request` after the synchronize/shift phase:
schedule the collapse timer for majority members, dispatch the message to the
recorder (or answer a bare synchronize directly), and build the reply. -/
def requestFinish (now : Nat) (req : Request) (s2 : Citizen) :
    Except String (Reply × Citizen) := do
  let s3 :=
    if s2.government.majority.tail.contains s2.id then
      let sch := schedWrite s2.scheduler s2.id (now + s2.timeout) ⟨"collapse", [], false⟩
      {s2 with scheduler := sch}
    else s2
  let (message, s4) ←
    if req.message.method = "synchronize" then
      Except.ok ((⟨"respond", some s3.head.promise⟩ : RMsg), s3)
    else recorderRequest now s3 req.message
  let rsync ← paxosSyncFor s4 req.sync.from_ none 24
  Except.ok (⟨message, rsync, s4._minimum, s4._unreachable⟩, s4)

/-- `Paxos.prototype.request(now, request)`.  Note that the incoming
`request.sync.republic` is never consulted (the source carries a TODO to
reject wrong-republic traffic). -/
def paxosRequest (now : Nat) (s0 : Citizen) (req : Request) :
    Except String (Reply × Citizen) := do
  let sync0 := mkSyncBase s0
  let s :=
    if s0._minimum.propagated < req.sync.minimum.propagated then
      {s0 with _minimum := {s0._minimum with propagated := req.sync.minimum.propagated}}
    else s0
  if req.sync.committed < sync0.committed then
    -- We are ahead of the sender, reject and sync it back.
    let rsync ← paxosSyncFor s req.sync.from_ (some req.sync.committed) 24
    Except.ok (⟨⟨"reject", some sync0.committed⟩, rsync, s._minimum, s._unreachable⟩, s)
  else do
    let (ok1, s1) ← paxosSynchronize now s req.sync.commits
    if ok1 = false then
      let rsync ← paxosSyncFor s1 req.sync.from_ none 24
      Except.ok (⟨⟨"unreachable", none⟩, rsync, s1._minimum, s1._unreachable⟩, s1)
    else do
      let s2 ←
        if s1.head.promise ≠ p00 then do
          let (_, rest) ← shiftWhile s1.window s1._minimum.propagated
          Except.ok {s1 with window := rest}
        else Except.ok s1
      requestFinish now req s2

/-- The default a null or unreachable network response is refactored into. -/
def defaultResponse : Response :=
  ⟨⟨"unreachable", some p00⟩, ⟨none, []⟩, none, []⟩

/-- The response for a recipient after the network-failure refactoring. -/
def respOf (responses : String → Option Response) (id : String) : Response :=
  match responses id with
  | none => defaultResponse
  | some r => if r.message.method = "unreachable" then defaultResponse else r

/-- The reduction loop of `Paxos.prototype.response`: fold the constituents'
reduced minimums, starting from the head promise, bailing to `0/0` on any
missing, stale or null report. -/
def reducedLoop (s : Citizen) : List String → Promise → Promise
  | [], acc => acc
  | c :: rest, acc =>
    match alookup s._minimums c with
    | none => p00
    | some m =>
      if m.version ≠ s.government.promise ∨ m.reduced = p00 then p00
      else reducedLoop s rest (if m.reduced < acc then m.reduced else acc)

/-- The minimum-update block of `Paxos.prototype.response` (lines 715-742):
store the constituent's report, recompute `reduced`, and adopt it as
`propagated` when this citizen is the leader. -/
def responseMinimumUpdate (s : Citizen) (to_ : String) (m : Minimum) : Citizen :=
  let s1 := {s with _minimums := aset s._minimums to_ ⟨m.propagated, m.version, m.reduced⟩}
  let reduced := reducedLoop s1 s1.constituency s1.head.promise
  let propagated :=
    if s1.government.majority.head? = some s1.id then reduced
    else s1._minimum.propagated
  {s1 with _minimum := ⟨propagated, s1.government.promise, reduced⟩}

/-- The per-recipient housekeeping loop body of `Paxos.prototype.response`. -/
def responseOne (now : Nat) (message : OutMessage)
    (responses : String → Option Response) (s : Citizen) (id : String) :
    Except String Citizen := do
  let promise? := alookup s.government.immigrated.promise id
  let isFailure : Bool :=
    match responses id with
    | none => true
    | some r => r.message.method == "unreachable"
  let (resp, s1) :=
    if isFailure then
      let sa := if message.collapsible then paxosCollapse now s else s
      match promise? with
      | some pr =>
        match alookup sa._disappeared pr with
        | none => (defaultResponse, {sa with _disappeared := aset sa._disappeared pr now})
        | some t0 =>
          if sa.timeout ≤ now - t0 then
            ({defaultResponse with unreachable := [pr]}, sa)
          else (defaultResponse, sa)
      | none => (defaultResponse, sa)
    else
      match promise? with
      | some pr => (respOf responses id, {s with _disappeared := aremove s._disappeared pr})
      | none => (respOf responses id, s)
  let s2 :=
    match resp.sync.committed, promise? with
    | some c, some pr => {s1 with _committed := aset s1._committed pr c}
    | _, _ => s1
  let (_, s3) ← paxosSynchronize now s2 resp.sync.commits
  let s4 := resp.unreachable.foldl
    (fun st u =>
      if st._unreachable.contains u then st
      else {st with _unreachable := st._unreachable ++ [u]})
    s3
  let s5 :=
    if message.constituent then
      match resp.minimum with
      | some m =>
        match alookup s4._minimums id with
        | none => responseMinimumUpdate s4 id m
        | some stored =>
          if stored.version ≠ m.version ∨ stored.reduced ≠ m.reduced then
            responseMinimumUpdate s4 id m
          else s4
      | none => s4
    else s4
  Except.ok s5

/-- `Paxos.prototype.response(now, message, responses)`. -/
def paxosResponse (now : Nat) (s : Citizen) (message : OutMessage)
    (responses : String → Option Response) : Except String Citizen := do
  match message.to_ with
  | none => Except.error "TypeError message to undefined"
  | some ids => do
    let s1 ← ids.foldlM (responseOne now message responses) s
    if message.method = "synchronize" then
      -- Skip syncs submitted by an earlier government.
      if message.version ≠ MVersion.prom s1.government.promise then Except.ok s1
      else
        match ids with
        | [] => Except.error "TypeError sync committed of undefined recipient"
        | t0 :: _ =>
          let com := (respOf responses t0).sync.committed
          let delay := if com = none ∨ com = some s1.head.promise then s1.ping else 0
          if message.key ≠ s1.id ∨ s1._writer.collapsed = false then
            let sch := schedWrite s1.scheduler message.key (now + delay)
              ⟨"synchronize", ids, message.collapsible⟩
            Except.ok {s1 with scheduler := sch}
          else Except.ok s1
    else
      match message.version with
      | MVersion.pair p c =>
        if p = s1._writer.promise ∧ c = s1._writer.collapsed then
          match s1._writer.kind with
          | WriterKind.writer =>
            -- part_002 line 816 passes three arguments, so the rejection
            -- promise parameter of Writer.response is always undefined here.
            writerResponse now s1 message none
          | WriterKind.proposer => proposerResponse now s1 message responses
        else Except.ok s1
      | MVersion.prom _ => Except.ok s1

/-- `Paxos.prototype._enqueuable(republic)`: `undefined` (none) means the
caller may proceed. -/
def paxosEnqueuable (s : Citizen) (republic : String) : Option EnqueueResult :=
  if s._writer.collapsed = true ∨ s.republic ≠ republic then
    some ⟨false, some s.republic, none, none⟩
  else if s.government.majority.head? ≠ some s.id then
    some ⟨false, some s.republic, s.government.majority.head?, none⟩
  else none

/-- `Paxos.prototype.enqueue(now, republic, message)`. -/
def paxosEnqueue (now : Nat) (s : Citizen) (republic : String) (message : EBody) :
    Except String (EnqueueResult × Citizen) :=
  match paxosEnqueuable s republic with
  | some r => Except.ok (r, s)
  | none =>
    match s._promised with
    | none => Except.error "TypeError increment of null promised"
    | some p0 => do
      let promise := Monotonic.incrementMinor p0
      let s1 := {s with _promised := some promise}
      let s2 ← paxosWriterPush s1 message
      let s3 ← paxosWriterNudge s2
      Except.ok (⟨true, none, s3.government.majority.head?, some promise⟩, s3)

/-- Insertion sort on strings, for `Object.keys(...).sort()`. -/
def insertSorted (x : String) : List String → List String
  | [] => [x]
  | y :: rest => if x ≤ y then x :: y :: rest else y :: insertSorted x rest

def sortStrings (l : List String) : List String := l.foldr insertSorted []

/-- The proposal-remapping fold of `newGovernment`: each still-queued proposal
takes the next minor promise after the new government, recording its old
promise in `was` and in the government `map`. -/
def remapProposals (promise : Promise) (majority : List String) :
    List Proposal → Promise × List (Promise × Promise) × List Proposal
  | [] => (promise, [], [])
  | p :: rest =>
    let np := Monotonic.incrementMinor promise
    let (fin, m, ps) := remapProposals np majority rest
    (fin, (p.promise, np) :: m,
     {p with was := some p.promise, route := some majority, promise := np} :: ps)

/-- `Paxos.prototype.newGovernment(now, quorum, government)`. -/
def newGovernment (now : Nat) (s : Citizen) (quorum : List String)
    (govIn : Government) : Except String Citizen := do
  let s := {s with _shaper := {s._shaper with decided := true}}
  let promise := Monotonic.incrementMajor s.government.promise
  let constituents := (sortStrings (s.government.properties.map Prod.fst)).filter
    (fun c => ¬ govIn.majority.contains c ∧ ¬ govIn.minority.contains c)
  let g1 := {govIn with promise := promise, constituents := constituents}
  let (s, g2, remapped) :=
    if s._writer.collapsed = false then
      let (fin, m, ps) := remapProposals promise g1.majority s._writer.proposals
      ({s with _writer := {s._writer with proposals := ps}},
       {g1 with map := some m}, fin)
    else (s, {g1 with map := none}, promise)
  let s := {s with _promised := some remapped}
  let properties := s.government.properties
  let immigrated := s.government.immigrated
  let (g3, properties, immigrated) :=
    match g2.immigrate with
    | some im =>
      ({g2 with constituents := g2.constituents ++ [im.id]},
       aset properties im.id im.properties,
       (⟨aset immigrated.promise im.id promise,
         aset immigrated.id promise im.id⟩ : Immigrated))
    | none =>
      match g2.exile with
      | some (ExileVal.byId ex) =>
        let exPromise := alookup immigrated.promise ex
        ({g2 with
            exile := some (ExileVal.full ⟨ex, exPromise, alookup properties ex⟩),
            constituents := g2.constituents.erase ex},
         aremove properties ex,
         (⟨aremove immigrated.promise ex,
           match exPromise with
           | some pr => aremove immigrated.id pr
           | none => immigrated.id⟩ : Immigrated))
      | _ => (g2, properties, immigrated)
  let g4 := {g3 with immigrated := immigrated, properties := properties}
  let headBoundary : Bool :=
    match s._writer.proposals.head? with
    | some p => Monotonic.isBoundary p.promise
    | none => false
  if headBoundary = true then Except.error "assert proposals head is boundary"
  else do
    let s := writerUnshift s ⟨some quorum, promise, EBody.gov g4, none, none⟩
    paxosWriterNudge s

/-- `Paxos.prototype.bootstrap(now, properties)`: install the dictator
government `1/0`.  Its immigrate record is the literal
`{ id: '0', properties, cookie: 0 }` from the source. -/
def paxosBootstrap (now : Nat) (s : Citizen) (properties : String) :
    Except String Citizen := do
  let government : Government :=
    { promise := ⟨1, 0⟩,
      majority := [s.id],
      minority := [],
      constituents := [],
      properties := [(s.id, properties)],
      immigrated := ⟨[(s.id, ⟨1, 0⟩)], [(⟨1, 0⟩, s.id)]⟩,
      map := some [],
      immigrate := some ⟨"0", 0, properties⟩,
      exile := none }
  let s := {s with
    _promised := some ⟨1, 0⟩,
    _shaper := shaperImmigrate s._shaper ⟨s.id, 0, ""⟩}
  paxosCommit now s ⟨⟨1, 0⟩, EBody.gov government, p00⟩ p00

/-- The null government installed by the constructor. -/
def nullGovernment : Government :=
  ⟨p00, [], [], [], [], ⟨[], []⟩, none, none, none⟩

def nullEntry : LogEntry := ⟨"government", p00, EBody.gov nullGovernment, none⟩

/-- The `Paxos` constructor. -/
def paxosInit (now : Nat) (republic : String) (id : String)
    (parliamentSize ping timeout : Nat) : Citizen :=
  { id := id, cookie := now, republic := republic,
    parliamentSize := parliamentSize, ping := ping, timeout := timeout,
    window := [nullEntry], head := nullEntry, scheduler := [],
    government := nullGovernment, _promised := none,
    constituency := [], citizens := [],
    _committed := [],
    _minimum := ⟨p00, p00, p00⟩,
    _minimums := [(id, ⟨p00, p00, p00⟩)],
    outbox := [],
    _writer := ⟨WriterKind.writer, ⟨1, 0⟩, false, [], []⟩,
    _recorder := ⟨RecorderKind.recorder, p00, []⟩,
    _shaper := ⟨parliamentSize, false, []⟩,
    _seed := 1, _disappeared := [], _unreachable := [] }

/-! ### The writer as a standalone machine

To reason about the pipeline discipline of `writer.js` over whole histories,
the writer is also embedded as a self-contained state machine in which
`this._paxos._send` records the request and makes it the round in flight.
Responses are only ever processed for a request the writer itself sent (the
version filter in `Paxos.prototype.response` guarantees this), so the
response step consumes the outstanding round. -/

structure WriterM where
  promised : Promise
  proposals : List Proposal
  writing : List Proposal
  outstanding : Option (List WMsg)
  sent : List (List WMsg)
deriving DecidableEq, Repr

/-- `Writer.prototype.push` (the quorum read from the undefined
`paxos.majority` is `none`). -/
def wmPush (w : WriterM) (body : EBody) : WriterM :=
  let p2 := Monotonic.incrementMinor w.promised
  {w with promised := p2, proposals := w.proposals ++ [⟨none, p2, body, none, none⟩]}

/-- `Writer.prototype.unshift`. -/
def wmUnshift (w : WriterM) (pr : Proposal) : WriterM :=
  {w with proposals := (⟨pr.quorum, pr.promise, pr.body, none, none⟩ : Proposal) :: w.proposals}

/-- `Writer.prototype.nudge`. -/
def wmNudge (w : WriterM) : WriterM :=
  match w.writing, w.proposals with
  | [], p :: rest =>
    let msgs : List WMsg := [⟨"write", p.promise, some p.body⟩]
    {w with writing := [p], proposals := rest,
            outstanding := some msgs, sent := w.sent ++ [msgs]}
  | _, _ => w

/-- The message loop of `Writer.prototype.response` for a null rejection
promise. -/
def wmRespondMsgs : WriterM → List WMsg → Option WriterM
  | w, [] => some w
  | w, m :: rest =>
    match m.method with
    | "write" =>
      match w.writing with
      | [] => none
      | w0 :: _ =>
        let base : List WMsg := [⟨"commit", w0.promise, none⟩]
        let (w1, req) : WriterM × List WMsg :=
          match w.proposals with
          | p :: ps =>
            if Monotonic.isBoundary w0.promise = false ∧
                Monotonic.isBoundary p.promise = false then
              ({w with writing := w.writing ++ [p], proposals := ps},
               base ++ [(⟨"write", p.promise, some p.body⟩ : WMsg)])
            else (w, base)
          | [] => (w, base)
        wmRespondMsgs {w1 with outstanding := some req, sent := w1.sent ++ [req]} rest
    | "commit" =>
      wmRespondMsgs (wmNudge {w with writing := w.writing.tail}) rest
    | _ => wmRespondMsgs w rest

/-- Consume the outstanding round: process its messages, having cleared the
in-flight request slot. -/
def wmRespond (w : WriterM) (msgs : List WMsg) : Option WriterM :=
  wmRespondMsgs {w with outstanding := none} msgs

/-- Reachable writer histories: the citizen may push, unshift a government
and nudge, and the network may deliver the response to the round in flight.
Responses carrying a non-null rejection promise are absent because part_002
invokes `Writer.response` with three arguments (and the collapse branch
itself aborts with a `TypeError`, see the C3 theorem). -/
inductive WriterReach : WriterM → Prop
  | init (promised : Promise) : WriterReach ⟨promised, [], [], none, []⟩
  | push (w : WriterM) (body : EBody) : WriterReach w → WriterReach (wmPush w body)
  | unshift (w : WriterM) (pr : Proposal) : WriterReach w → WriterReach (wmUnshift w pr)
  | nudge (w : WriterM) : WriterReach w → WriterReach (wmNudge w)
  | respond (w w' : WriterM) (msgs : List WMsg) : WriterReach w →
      w.outstanding = some msgs → wmRespond w msgs = some w' → WriterReach w'

/-! ### Concrete states used by witnesses and counterexamples -/

/-- A three-member government led by citizen `a`. -/
def gl : Government :=
  { promise := ⟨2,0⟩, majority := ["a","b","c"], minority := [], constituents := [],
    properties := [("a","pa"),("b","pb"),("c","pc")],
    immigrated := ⟨[("a",⟨1,0⟩),("b",⟨2,0⟩),("c",⟨2,0⟩)], [(⟨1,0⟩,"a"),(⟨2,0⟩,"b")]⟩,
    map := some [], immigrate := none, exile := none }

def e1 : LogEntry := ⟨"government", ⟨1,0⟩, EBody.gov nullGovernment, some p00⟩

def e2 : LogEntry := ⟨"government", ⟨2,0⟩, EBody.gov gl, some ⟨1,0⟩⟩

/-- Citizen `a`, leader of `gl`, with both constituents' minimum reports
stored under the previous government version `1/0` and a propagated minimum
of `2/0`. -/
def sL : Citizen :=
  { id := "a", cookie := 7, republic := "r",
    parliamentSize := 5, ping := 1, timeout := 2,
    window := [e1, e2], head := e2, scheduler := [],
    government := gl, _promised := some ⟨2,0⟩,
    constituency := ["b","c"], citizens := ["a","b","c"],
    _committed := [],
    _minimum := ⟨⟨2,0⟩, ⟨2,0⟩, ⟨2,0⟩⟩,
    _minimums := [("b", ⟨⟨2,0⟩, ⟨1,0⟩, ⟨2,0⟩⟩), ("c", ⟨⟨2,0⟩, ⟨1,0⟩, ⟨2,0⟩⟩)],
    outbox := [],
    _writer := ⟨WriterKind.writer, ⟨2,0⟩, false, [], []⟩,
    _recorder := ⟨RecorderKind.recorder, ⟨2,0⟩, []⟩,
    _shaper := ⟨5, false, []⟩,
    _seed := 1, _disappeared := [], _unreachable := [] }

/-- A constituent synchronize round from `a` to `b` under government `2/0`. -/
def msgSync : OutMessage :=
  ⟨"synchronize", MVersion.prom ⟨2,0⟩, some ["b"], [], false, true, "b"⟩

/-- Constituent `b` reports its minimum under the current version `2/0`. -/
def respB : Response :=
  ⟨⟨"respond", some ⟨2,0⟩⟩, ⟨some ⟨2,0⟩, []⟩, some ⟨⟨2,0⟩, ⟨2,0⟩, ⟨2,0⟩⟩, []⟩

def responsesB : String → Option Response :=
  fun id => if id = "b" then some respB else none

/-- `sL` with one user entry in flight at the writer. -/
def sLbusy : Citizen :=
  {sL with _writer := {sL._writer with
    writing := [⟨some ["a","b","c"], ⟨2,1⟩, EBody.user "w", none, none⟩]}}

/-- The write round `sLbusy` has in flight. -/
def msgWrite : OutMessage :=
  ⟨"write", MVersion.pair ⟨2,0⟩ false, some ["b"],
   [⟨"write", ⟨2,1⟩, some (EBody.user "w")⟩], false, false, ""⟩

/-- A rejection from recorder `b`: a higher promise `3/0` conflicted. -/
def respReject : Response := ⟨⟨"reject", some ⟨3,0⟩⟩, ⟨some ⟨2,0⟩, []⟩, none, []⟩

def responsesReject : String → Option Response :=
  fun id => if id = "b" then some respReject else none

/-! ### C9 -/

/-- The linear-congruential seed sequence. -/
def seedIter (seed : Nat) : Nat → Nat
  | 0 => seed
  | n + 1 => seedIter seed n * 16807 % 2147483647

/-- Iterated retries of `_propose`. -/
def proposeIter (now : Nat) (s : Citizen) : Nat → Citizen
  | 0 => s
  | n + 1 => paxosPropose now true (proposeIter now s n)

theorem alookup_aset_self {α β : Type} [DecidableEq α]
    (l : List (α × β)) (k : α) (v : β) : alookup (aset l k v) k = some v := by
  induction l with
  | nil => simp [aset, alookup]
  | cons h t ih =>
    by_cases hk : h.1 = k
    · simp [aset, hk, alookup]
    · cases h with
      | mk k0 v0 => simp only [aset] at *; rw [if_neg hk]; simp [alookup, hk, ih]

theorem paxosPropose_id (now : Nat) (retry : Bool) (s : Citizen) :
    (paxosPropose now retry s).id = s.id ∧
    (paxosPropose now retry s).government = s.government ∧
    (paxosPropose now retry s).timeout = s.timeout := by
  unfold paxosPropose
  split <;> exact ⟨rfl, rfl, rfl⟩

theorem proposeIter_props (now : Nat) (s : Citizen) (n : Nat) :
    (proposeIter now s n).government = s.government ∧
    (proposeIter now s n).id = s.id ∧
    (proposeIter now s n).timeout = s.timeout := by
  induction n with
  | zero => exact ⟨rfl, rfl, rfl⟩
  | succ n ih =>
    obtain ⟨hg, hi, ht⟩ := ih
    obtain ⟨hi', hg', ht'⟩ := paxosPropose_id now true (proposeIter now s n)
    exact ⟨hg'.trans hg, hi'.trans hi, ht'.trans ht⟩

theorem proposeIter_seed (now : Nat) (s : Citizen)
    (hl : s.government.majority.head? ≠ some s.id) (n : Nat) :
    (proposeIter now s n)._seed = seedIter s._seed n := by
  induction n with
  | zero => rfl
  | succ n ih =>
    obtain ⟨hg, hi, _⟩ := proposeIter_props now s n
    have hl' : (proposeIter now s n).government.majority.head? ≠
        some (proposeIter now s n).id := by
      rw [hg, hi]; exact hl
    show (paxosPropose now true (proposeIter now s n))._seed = _
    unfold paxosPropose
    rw [if_pos ⟨rfl, hl'⟩]
    show (proposeIter now s n)._seed * 16807 % 2147483647 = _
    rw [ih]
    rfl

/-- C9: a non-leader proposer delays its propose event by
`((seed * 16807) mod (2^31 - 1)) mod timeout`, with the seed updated to
`(seed * 16807) mod (2^31 - 1)` on each retry, while the leader
(`majority[0]`) retries with zero delay; with the initial seed fixed, the
delay (and seed) sequence is deterministic across replays. -/
theorem C9_retry_backoff (s : Citizen) (now : Nat) (ht : 0 < s.timeout) :
    (s.government.majority.head? ≠ some s.id →
      (paxosPropose now true s)._seed = s._seed * 16807 % 2147483647 ∧
      alookup (paxosPropose now true s).scheduler s.id =
        some (now + (s._seed * 16807 % 2147483647) % s.timeout,
          (⟨"propose", [], false⟩ : SchedEvent)) ∧
      (∀ n, (proposeIter now s n)._seed = seedIter s._seed n)) ∧
    (s.government.majority.head? = some s.id →
      (paxosPropose now true s)._seed = s._seed ∧
      alookup (paxosPropose now true s).scheduler s.id =
        some (now, (⟨"propose", [], false⟩ : SchedEvent))) ∧
    ((paxosPropose now false s)._seed = s._seed ∧
      alookup (paxosPropose now false s).scheduler s.id =
        some (now, (⟨"propose", [], false⟩ : SchedEvent))) := by
  refine ⟨?_, ?_, ?_⟩
  · intro hl
    have h1 : paxosPropose now true s =
        {s with _seed := s._seed * 16807 % 2147483647,
                scheduler := schedWrite s.scheduler s.id
                  (now + (s._seed * 16807 % 2147483647) % s.timeout)
                  ⟨"propose", [], false⟩} := by
      unfold paxosPropose
      rw [if_pos ⟨rfl, hl⟩]
    refine ⟨by rw [h1], by rw [h1]; exact alookup_aset_self _ _ _, ?_⟩
    exact proposeIter_seed now s hl
  · intro hl
    have h1 : paxosPropose now true s =
        {s with scheduler := schedWrite s.scheduler s.id now ⟨"propose", [], false⟩} := by
      unfold paxosPropose
      rw [if_neg]
      intro hcon
      exact hcon.2 hl
    exact ⟨by rw [h1], by rw [h1]; exact alookup_aset_self _ _ _⟩
  · have h1 : paxosPropose now false s =
        {s with scheduler := schedWrite s.scheduler s.id now ⟨"propose", [], false⟩} := by
      unfold paxosPropose
      rw [if_neg]
      intro hcon
      exact Bool.false_ne_true hcon.1
    exact ⟨by rw [h1], by rw [h1]; exact alookup_aset_self _ _ _⟩

/-- Witness for C9 at the non-leader `b` (seed 1, timeout 2) and at the
leader `a`. -/
theorem C9_retry_backoff_witness :
    0 < sL.timeout ∧
    ({sL with id := "b"}.government.majority.head? ≠ some "b" ∧
      (paxosPropose 9 true {sL with id := "b"})._seed = 16807 ∧
      alookup (paxosPropose 9 true {sL with id := "b"}).scheduler "b" =
        some (10, (⟨"propose", [], false⟩ : SchedEvent))) ∧
    (sL.government.majority.head? = some sL.id ∧
      alookup (paxosPropose 9 true sL).scheduler "a" =
        some (9, (⟨"propose", [], false⟩ : SchedEvent))) := by
  have ht : 0 < ({sL with id := "b"} : Citizen).timeout := by decide
  have h1 := (C9_retry_backoff {sL with id := "b"} 9 ht).1 (by decide)
  have h2 := (C9_retry_backoff sL 9 (by decide)).2.1 (by decide)
  exact ⟨by decide, ⟨by decide, by simpa using h1.1, by simpa using h1.2.1⟩,
    ⟨by decide, by simpa using h2.2⟩⟩

/-! ### C10 -/

/-- C10: for every citizen id and construction time, bootstrap installs the
dictator government `1/0` whose immigrate record is the constant
`{id: '0', cookie: 0}` regardless of the citizen's actual id and cookie;
the properties and immigrated maps use the real id, so for a citizen whose
id is not `'0'` the bootstrap government's `immigrate.id` differs from the
id they record, and the recorded cookie is `0` rather than the construction
time (the citizen's cookie, which is `now`). -/
theorem C10_bootstrap_constant_immigrate (now : Nat) (republic id properties : String)
    (parliamentSize ping timeout : Nat) :
    (paxosInit now republic id parliamentSize ping timeout).cookie = now ∧
    ∃ s', paxosBootstrap now (paxosInit now republic id parliamentSize ping timeout) properties
        = Except.ok s' ∧
      s'.government.promise = ⟨1, 0⟩ ∧
      s'.government.immigrate = some ⟨"0", 0, properties⟩ ∧
      alookup s'.government.properties id = some properties ∧
      alookup s'.government.immigrated.promise id = some ⟨1, 0⟩ ∧
      alookup s'.government.immigrated.id ⟨1, 0⟩ = some id ∧
      (∀ im, s'.government.immigrate = some im →
        im.cookie = 0 ∧ (id ≠ "0" → im.id ≠ id)) := by
  have h1 : ¬ ((⟨1, 0⟩ : Promise) ≤ p00) := by decide
  have h2 : p00 < (⟨1, 0⟩ : Promise) := by decide
  have h3 : Monotonic.isBoundary (⟨1, 0⟩ : Promise) = true := by decide
  refine ⟨rfl, ?_⟩
  simp only [paxosBootstrap, paxosInit, paxosCommit, commitFinish, enactGovernment,
    constituencyOf,
    shareOf, shaperImmigrate, shaperImmigrated, writerCreateWriter, govOf,
    h1, h2, h3, nullGovernment, WireEntry.toLog, schedWrite, aset,
    if_false, if_true, List.head?, List.tail, List.length, List.contains,
    Bind.bind, Except.bind, Option.map, ite_true, ite_false, not_false_eq_true,
    not_true, List.foldl]
  simp [alookup]
  intro h
  exact fun hh => h hh.symm

/-- Witness for C10 at citizen `"a"` created at time 7. -/
theorem C10_bootstrap_constant_immigrate_witness :
    (paxosInit 7 "r" "a" 5 1 2).cookie = 7 ∧
    ∃ s', paxosBootstrap 7 (paxosInit 7 "r" "a" 5 1 2) "addr" = Except.ok s' ∧
      s'.government.promise = ⟨1, 0⟩ ∧
      s'.government.immigrate = some ⟨"0", 0, "addr"⟩ ∧
      alookup s'.government.properties "a" = some "addr" ∧
      alookup s'.government.immigrated.promise "a" = some ⟨1, 0⟩ ∧
      alookup s'.government.immigrated.id ⟨1, 0⟩ = some "a" ∧
      (∀ im, s'.government.immigrate = some im →
        im.cookie = 0 ∧ ("a" ≠ "0" → im.id ≠ "a")) :=
  C10_bootstrap_constant_immigrate 7 "r" "a" "addr" 5 1 2

/-! ### C3 -/

/-- C3: the code cannot collapse on a rejected write.  `Paxos` defines no
`collapse` prototype method (only `_collapse`), so invoking
`Writer.response` with a non-null rejection promise throws a `TypeError`
instead of replacing the writer with a Proposer; moreover part_002 calls
`this._writer.response(now, message, responses)` with three arguments, so a
rejection reaching `Paxos.response` with a matching writer version leaves
the writer in place and uncollapsed (it even answers the rejected write
with a commit). -/
theorem C3_rejection_typeerror_not_collapse :
    paxosPrototypeMethods.contains "collapse" = false ∧
    writerResponse 9 sLbusy msgWrite (some ⟨3, 0⟩) =
      Except.error "TypeError this paxos collapse is not a function" ∧
    msgWrite.version = MVersion.pair sLbusy._writer.promise sLbusy._writer.collapsed ∧
    (paxosResponse 9 sLbusy msgWrite responsesReject).toOption.map
      (fun s => (s._writer.kind, s._writer.collapsed)) =
      some (WriterKind.writer, false) ∧
    respReject.message.promise = some ⟨3, 0⟩ :=
  ⟨by decide, by rfl, rfl, by rfl, rfl⟩

/-! ### C6 -/

/-- C6: enqueue refuses with `{enqueued: false, leader: null}` when collapsed
or on a republic mismatch and names the believed leader when this citizen is
not `majority[0]`; but on the leader path the code is broken: with an idle
writer the nudge sends to `proposals[0].quorum`, which `Writer.push` read
from the nonexistent `paxos.majority`, so enqueue throws a `TypeError`; with
a round in flight it returns the next minor promise while `Writer.push`
re-increments `_promised`, queueing the proposal under the promise after the
returned one with an undefined quorum. -/
theorem C6_enqueue_paths :
    (paxosEnqueue 9 {sL with _writer := {sL._writer with collapsed := true}}
        "r" (EBody.user "v")).toOption.map Prod.fst
      = some ⟨false, some "r", none, none⟩ ∧
    (paxosEnqueue 9 sL "other" (EBody.user "v")).toOption.map Prod.fst
      = some ⟨false, some "r", none, none⟩ ∧
    (paxosEnqueue 9 {sL with id := "b"} "r" (EBody.user "v")).toOption.map Prod.fst
      = some ⟨false, some "r", some "a", none⟩ ∧
    paxosEnqueue 9 sL "r" (EBody.user "v") =
      Except.error "TypeError cannot iterate undefined to" ∧
    (paxosEnqueue 9 sLbusy "r" (EBody.user "v")).toOption.map
      (fun r => (r.1, r.2._writer.proposals.map (fun p => (p.promise, p.quorum)),
        r.2._promised))
      = some (⟨true, none, some "a", some ⟨2, 1⟩⟩, [(⟨2, 2⟩, none)], some ⟨2, 2⟩) :=
  ⟨by rfl, by rfl, by rfl, by rfl, by rfl⟩

/-! ### C8 -/

/-- A commit chained onto `sL`'s head, carried by a foreign-republic sync. -/
def wireE3 : WireEntry := ⟨⟨2, 1⟩, EBody.user "z", ⟨2, 0⟩⟩

/-- A request whose sync names the republic `OTHER`, different from `sL`'s
republic `r`. -/
def reqWrong : Request :=
  ⟨⟨"synchronize", MVersion.prom ⟨2, 0⟩, some ["a"], [], false, true, "a"⟩,
   ⟨"OTHER", some ⟨2, 0⟩, "b", ⟨p00, ⟨2, 0⟩, ⟨2, 0⟩⟩, ⟨2, 1⟩, [wireE3]⟩⟩

/-- C8: `request` never reads `request.sync.republic` (the source carries a
TODO), so a request carrying a different republic is processed normally:
the receiver answers `respond` rather than treating the sender as
unreachable, and it applies the sender's commits to its log — the foreign
entry `2/1` becomes the new head. -/
theorem C8_wrong_republic_processed :
    sL.republic = "r" ∧
    reqWrong.sync.republic = "OTHER" ∧
    (paxosRequest 9 sL reqWrong).toOption.map
      (fun r => (r.1.message.method, r.2.head.promise,
        r.2.window.map LogEntry.promise))
      = some ("respond", ⟨2, 1⟩, [⟨2, 0⟩, ⟨2, 1⟩]) :=
  ⟨rfl, rfl, by rfl⟩

/-! ### C7 -/

/-- `if m.reduced < acc then m.reduced else acc`. -/
def pmin (acc b : Promise) : Promise := if b < acc then b else acc

/-- Every constituent has a stored minimum reported under the current
government version. -/
def allCurrent (s : Citizen) (l : List String) : Bool :=
  l.all (fun c =>
    match alookup s._minimums c with
    | some m => m.version == s.government.promise
    | none => false)

/-- Fold of the constituents' reduced values into an accumulator. -/
def minFold (s : Citizen) (l : List String) (acc : Promise) : Promise :=
  l.foldl (fun acc c =>
    match alookup s._minimums c with
    | some m => pmin acc m.reduced
    | none => acc) acc

/-- What the reduction loop actually computes: the minimum of the head
promise and the constituents' reduced values when all constituents reported
under the current version, else `0/0`. -/
def reducedSpec (s : Citizen) : Promise :=
  if allCurrent s s.constituency = true then minFold s s.constituency s.head.promise
  else p00

/-- The claim C7 reading of `reduced`: the minimum over the constituents'
reduced values alone, with no head-promise seed. -/
def reducedClaimed (s : Citizen) : Option Promise :=
  match s.constituency.filterMap (fun c => (alookup s._minimums c).map Minimum.reduced) with
  | [] => none
  | x :: xs => some (xs.foldl pmin x)

theorem p00_le (p : Promise) : p00 ≤ p := by
  by_cases hg : p.g = 0
  · by_cases hr : p.r = 0
    · exact Or.inr (Promise.ext_gr (by simp [p00, hg]) (by simp [p00, hr]))
    · exact Or.inl (Or.inr ⟨by simp [p00, hg], by simp [p00]; omega⟩)
  · exact Or.inl (Or.inl (by simp [p00]; omega))

theorem not_lt_p00 (p : Promise) : ¬ p < p00 := by
  intro h
  rcases h with h | ⟨_, h⟩ <;> simp [p00] at h

theorem pmin_p00 (acc : Promise) : pmin acc p00 = p00 := by
  unfold pmin
  rcases p00_le acc with h | h
  · rw [if_pos h]
  · rw [if_neg (by rw [← h]; exact Promise.lt_irrefl _), ← h]

theorem pmin_p00_left (b : Promise) : pmin p00 b = p00 := by
  unfold pmin
  rw [if_neg (not_lt_p00 b)]

theorem minFold_p00 (s : Citizen) (l : List String) : minFold s l p00 = p00 := by
  induction l with
  | nil => rfl
  | cons c rest ih =>
    cases hm : alookup s._minimums c with
    | none => simpa [minFold, hm] using ih
    | some m =>
      have h : minFold s (c :: rest) p00 = minFold s rest (pmin p00 m.reduced) := by
        simp [minFold, hm]
      rw [h, pmin_p00_left]
      exact ih

theorem reducedLoop_eq (s : Citizen) (l : List String) (acc : Promise) :
    reducedLoop s l acc =
      if allCurrent s l = true then minFold s l acc else p00 := by
  induction l generalizing acc with
  | nil => simp [reducedLoop, allCurrent, minFold]
  | cons c rest ih =>
    cases hm : alookup s._minimums c with
    | none => simp [reducedLoop, allCurrent, hm]
    | some m =>
      by_cases hv : m.version = s.government.promise
      · by_cases hr : m.reduced = p00
        · have h1 : reducedLoop s (c :: rest) acc = p00 := by
            simp [reducedLoop, hm, hr]
          have h2 : allCurrent s (c :: rest) = allCurrent s rest := by
            simp [allCurrent, hm, hv]
          have h3 : minFold s (c :: rest) acc = minFold s rest p00 := by
            simp [minFold, hm, hr, pmin_p00]
          rw [h1, h2, h3, minFold_p00]
          split <;> rfl
        · have h1 : reducedLoop s (c :: rest) acc =
              reducedLoop s rest (pmin acc m.reduced) := by
            simp [reducedLoop, hm, hv, hr, pmin]
          have h2 : allCurrent s (c :: rest) = allCurrent s rest := by
            simp [allCurrent, hm, hv]
          have h3 : minFold s (c :: rest) acc = minFold s rest (pmin acc m.reduced) := by
            simp [minFold, hm]
          rw [h1, h2, h3]
          exact ih (pmin acc m.reduced)
      · have h1 : reducedLoop s (c :: rest) acc = p00 := by
          simp [reducedLoop, hm, hv]
        have h2 : allCurrent s (c :: rest) = false := by
          simp [allCurrent, hm, beq_iff_eq, hv]
        rw [h1, h2]
        rfl

/-- C7 (amended): the recomputed minimum after a constituent report stores
`version = government.promise` and `reduced` equal to the minimum of the
head promise and the constituents reduced values when every constituent
has reported under the current government version (so `0/0` when any report
is missing, stale, or itself `0/0`); the leader (`majority[0]`) adopts that
reduced value as `propagated` while a non-leader keeps its previous
`propagated`. -/
theorem C7_reduced_recompute (s : Citizen) (to_ : String) (m : Minimum) :
    (responseMinimumUpdate s to_ m)._minimum =
      ⟨if s.government.majority.head? = some s.id then
          reducedSpec {s with _minimums := aset s._minimums to_ m}
        else s._minimum.propagated,
       s.government.promise,
       reducedSpec {s with _minimums := aset s._minimums to_ m}⟩ := by
  simp only [responseMinimumUpdate, reducedSpec, reducedLoop_eq]

/-- `sL` with a non-boundary head `2/3` and the single constituent `b`. -/
def e3 : LogEntry := ⟨"entry", ⟨2, 3⟩, EBody.user "x", some ⟨2, 2⟩⟩

def sC7 : Citizen := {sL with head := e3, constituency := ["b"]}

/-- Constituent `b` reports under the current version with reduced `5/0`. -/
def mB : Minimum := ⟨⟨2, 0⟩, ⟨2, 0⟩, ⟨5, 0⟩⟩

/-- C7 counterexample: all constituents (here `b`) have reported under the
current government version and the minimum of their reduced values is `5/0`,
yet the recomputed reduced is the head promise `2/3` — the loop seeds its
fold with `log.head.body.promise`, which the claim omits — and the leader
adopts `2/3` as propagated. -/
theorem C7_reduced_counterexample :
    allCurrent {sC7 with _minimums := aset sC7._minimums "b" mB} ["b"] = true ∧
    reducedClaimed {sC7 with _minimums := aset sC7._minimums "b" mB} = some ⟨5, 0⟩ ∧
    (responseMinimumUpdate sC7 "b" mB)._minimum.reduced = ⟨2, 3⟩ ∧
    (⟨2, 3⟩ : Promise) ≠ ⟨5, 0⟩ ∧
    (responseMinimumUpdate sC7 "b" mB)._minimum.propagated = ⟨2, 3⟩ :=
  ⟨by rfl, by rfl, by rfl, by decide, by rfl⟩

/-! ### C2 (counterexample part) -/

/-- C2 counterexample: processing a well-formed constituent response at the
leader `a` lowers `_minimum.propagated` from `2/0` to `0/0`: constituent `b`
reports under the current version `2/0` while `c`'s stored report is still
from version `1/0`, so the recomputed reduced is `0/0` and the leader adopts
it as its propagated minimum. -/
theorem C2_propagated_decreases :
    sL._minimum.propagated = ⟨2, 0⟩ ∧
    (paxosResponse 9 sL msgSync responsesB).toOption.map
      (fun s => s._minimum.propagated) = some p00 ∧
    p00 < sL._minimum.propagated :=
  ⟨rfl, by rfl, by decide⟩

/-! ### C5 -/

theorem except_bind_ok {α β : Type} {x : Except String α} {f : α → Except String β} {b : β}
    (h : x.bind f = Except.ok b) : ∃ a, x = Except.ok a ∧ f a = Except.ok b := by
  cases x with
  | error e => simp [Except.bind] at h
  | ok a => exact ⟨a, rfl, by simpa [Except.bind] using h⟩

theorem paxosSendLoop_writer (message : OutMessage) :
    ∀ (ids : List String) (s s1 : Citizen) (envs : List Envelope),
    paxosSendLoop message s ids = Except.ok (s1, envs) → s1._writer = s._writer := by
  intro ids
  induction ids with
  | nil =>
    intro s s1 envs h
    simp [paxosSendLoop] at h
    rw [← h.1]
  | cons id rest ih =>
    intro s s1 envs h
    simp only [paxosSendLoop] at h
    obtain ⟨sync, hsync, h2⟩ := except_bind_ok h
    obtain ⟨⟨s2, envs2⟩, hrec, h3⟩ := except_bind_ok h2
    have := ih _ _ _ hrec
    simp [Except.bind] at h3
    rw [← h3.1]
    exact this

theorem paxosSend_writer {s s' : Citizen} {message : OutMessage}
    (h : paxosSend s message = Except.ok s') : s'._writer = s._writer := by
  unfold paxosSend at h
  cases hto : message.to_ with
  | none => rw [hto] at h; simp at h
  | some ids =>
    rw [hto] at h
    obtain ⟨⟨s1, envs⟩, hloop, h2⟩ := except_bind_ok h
    simp [Except.bind] at h2
    rw [← h2]
    exact paxosSendLoop_writer message ids s s1 envs hloop

/-- `nudge` moves the queue head into the in-flight slot but preserves the
concatenation of in-flight and queued proposals. -/
theorem nudge_concat {s s' : Citizen} (h : paxosWriterNudge s = Except.ok s') :
    s'._writer.writing ++ s'._writer.proposals =
      s._writer.writing ++ s._writer.proposals ∧
    s'._writer.promise = s._writer.promise := by
  unfold paxosWriterNudge at h
  split at h
  next p rest hw hp =>
    have hwr := paxosSend_writer h
    rw [hwr]
    constructor
    · show ([p] : List Proposal) ++ rest = _
      rw [hw, hp]
      rfl
    · rfl
  next =>
    simp at h
    rw [← h]
    exact ⟨rfl, rfl⟩

/-- `newGovernment` places into the writer a government proposal whose
promise — and whose government body promise — is the increment-major of the
current government promise. -/
theorem newGovernment_unshifts {now : Nat} {s s' : Citizen} {quorum : List String}
    {govIn : Government} (h : newGovernment now s quorum govIn = Except.ok s') :
    ∃ g, (⟨some quorum, Monotonic.incrementMajor s.government.promise,
        EBody.gov g, none, none⟩ : Proposal) ∈
        s'._writer.writing ++ s'._writer.proposals ∧
      g.promise = Monotonic.incrementMajor s.government.promise := by
  dsimp only [newGovernment] at h
  rcases himm : govIn.immigrate with _ | im <;> rw [himm] at h
  · rcases hexi : govIn.exile with _ | (⟨ex⟩ | ⟨er⟩) <;> rw [hexi] at h <;>
    · split at h
      next heq =>
        split at h
        next hb => exact absurd h (by simp)
        next hb =>
          obtain ⟨hcat, _⟩ := nudge_concat h
          dsimp [writerUnshift] at hcat
          exact ⟨_, by rw [hcat]; exact List.mem_append_right _ (List.mem_cons_self _ _), rfl⟩
      next heq =>
        split at h
        next hb => exact absurd h (by simp)
        next hb =>
          obtain ⟨hcat, _⟩ := nudge_concat h
          dsimp [writerUnshift] at hcat
          exact ⟨_, by rw [hcat]; exact List.mem_append_right _ (List.mem_cons_self _ _), rfl⟩
  · split at h
    next heq =>
      split at h
      next hb => exact absurd h (by simp)
      next hb =>
        obtain ⟨hcat, _⟩ := nudge_concat h
        dsimp [writerUnshift] at hcat
        exact ⟨_, by rw [hcat]; exact List.mem_append_right _ (List.mem_cons_self _ _), rfl⟩
    next heq =>
      split at h
      next hb => exact absurd h (by simp)
      next hb =>
        obtain ⟨hcat, _⟩ := nudge_concat h
        dsimp [writerUnshift] at hcat
        exact ⟨_, by rw [hcat]; exact List.mem_append_right _ (List.mem_cons_self _ _), rfl⟩

/-- What `_commit` checks before pushing a government entry: round zero,
matching previous, and strictly increasing government promise — but not
`g = previous.g + 1`. -/
theorem commit_gov_accept {now : Nat} {sc sc' : Citizen} {e : WireEntry} {top : Promise}
    (hb : Monotonic.isBoundary e.promise = true)
    (h : paxosCommit now sc e top = Except.ok sc')
    (hw : sc'.window ≠ sc.window) :
    e.promise.r = 0 ∧ e.previous = top ∧ sc.government.promise < e.promise := by
  have hr : e.promise.r = 0 := by simpa [Monotonic.isBoundary] using hb
  unfold paxosCommit at h
  split at h
  next hle =>
    exfalso
    apply hw
    split at h
    · split at h
      · exact absurd h (by simp)
      · split at h
        · injection h with h2
          rw [← h2]
        · exact absurd h (by simp)
    · injection h with h2
      rw [← h2]
  next hgt =>
    split at h
    next hne => exact absurd h (by simp)
    next hprev =>
      simp only [hb, eq_self_iff_true, true_or, not_true, if_false, ite_false,
        Bool.true_eq, if_true, ite_true] at h
      obtain ⟨y, hy, _⟩ := except_bind_ok h
      refine ⟨hr, (not_not.mp hprev).symm, ?_⟩
      by_cases hlt : sc.government.promise < e.promise
      · exact hlt
      · exfalso
        unfold enactGovernment at hy
        rw [if_pos hlt] at hy
        cases hy

/-- C5 (amended): `newGovernment` proposes the new government under the
increment-major `(g+1)/0` of the current government promise (both the
proposal promise and the government body promise); every government entry
`_commit` accepts and pushes has round 0, `previous` equal to the head it
was committed against, and a promise strictly above the current government
promise — `_commit` does not additionally require `g = previous.g + 1`. -/
theorem C5_government_promises (now : Nat) (s s' sc sc' : Citizen)
    (quorum : List String) (govIn : Government) (e : WireEntry) (top : Promise) :
    (newGovernment now s quorum govIn = Except.ok s' →
      ∃ g, (⟨some quorum, Monotonic.incrementMajor s.government.promise,
          EBody.gov g, none, none⟩ : Proposal) ∈
          s'._writer.writing ++ s'._writer.proposals ∧
        g.promise = Monotonic.incrementMajor s.government.promise) ∧
    (Monotonic.isBoundary e.promise = true → paxosCommit now sc e top = Except.ok sc' →
      sc'.window ≠ sc.window →
      e.promise.r = 0 ∧ e.previous = top ∧ sc.government.promise < e.promise) :=
  ⟨fun h => newGovernment_unshifts h, fun hb h hw => commit_gov_accept hb h hw⟩

/-- `sL`'s government rolled back to promise `1/0`, with the bare log. -/
def sG : Citizen :=
  {sL with government := {gl with promise := ⟨1, 0⟩}, head := e1, window := [e1]}

/-- A government whose promise jumps two majors ahead of `1/0`. -/
def gJump : Government := {gl with promise := ⟨3, 0⟩, majority := ["a"], minority := []}

/-- A government entry `3/0` chained directly onto `1/0`. -/
def jumpEntry : WireEntry := ⟨⟨3, 0⟩, EBody.gov gJump, ⟨1, 0⟩⟩

/-- C5 counterexample: `_commit` accepts and pushes the government entry
`3/0` whose previous is `1/0`, although `(previous.g + 1)/0 = 2/0 ≠ 3/0`:
the claim that every accepted government entry satisfies
`promise = (previous.g + 1)/0` is false. -/
theorem C5_commit_accepts_jump :
    ∃ sc', paxosCommit 9 sG jumpEntry ⟨1, 0⟩ = Except.ok sc' ∧
      sc'.window ≠ sG.window ∧ sc'.head.promise = ⟨3, 0⟩ ∧
      jumpEntry.promise ≠ Monotonic.incrementMajor jumpEntry.previous :=
  ⟨_, rfl, by decide, by rfl, by decide⟩

/-- A government draft handed to `newGovernment` by the shaper. -/
def govDraft : Government :=
  {nullGovernment with majority := ["a", "b"], minority := ["c"]}

/-- The states the witness runs end in. -/
def ngRes : Citizen := (newGovernment 9 sL ["a", "b"] govDraft).toOption.getD sL

def cmRes : Citizen := (paxosCommit 9 sG jumpEntry ⟨1, 0⟩).toOption.getD sG

/-- C5 witness: at the leader `sL` the new government is proposed under
`3/0 = increment-major 2/0`, and `_commit` at `sG` accepts `jumpEntry`. -/
theorem C5_government_promises_witness :
    newGovernment 9 sL ["a", "b"] govDraft = Except.ok ngRes ∧
    paxosCommit 9 sG jumpEntry ⟨1, 0⟩ = Except.ok cmRes ∧
    (∃ g, (⟨some ["a", "b"], Monotonic.incrementMajor sL.government.promise,
        EBody.gov g, none, none⟩ : Proposal) ∈
        ngRes._writer.writing ++ ngRes._writer.proposals ∧
      g.promise = Monotonic.incrementMajor sL.government.promise) ∧
    (jumpEntry.promise.r = 0 ∧ jumpEntry.previous = ⟨1, 0⟩ ∧
      sG.government.promise < jumpEntry.promise) := by
  refine ⟨by rfl, by rfl, ?_, ?_⟩
  · exact (C5_government_promises 9 sL ngRes sG cmRes ["a", "b"] govDraft
      jumpEntry ⟨1, 0⟩).1 (by rfl)
  · exact (C5_government_promises 9 sL ngRes sG cmRes ["a", "b"] govDraft
      jumpEntry ⟨1, 0⟩).2 (by decide) (by rfl) (by decide)

/-! ### C2: effects lemmas and truncation safety -/

theorem commitFinish_effects (now : Nat) (isG : Bool) (e : WireEntry) (y : Citizen) :
    (commitFinish now isG e y)._minimum.propagated = y._minimum.propagated ∧
    (commitFinish now isG e y).window = y.window ++ [WireEntry.toLog isG e] ∧
    (commitFinish now isG e y).head = WireEntry.toLog isG e ∧
    (commitFinish now isG e y).government = y.government := by
  dsimp only [commitFinish]
  refine ⟨?_, ?_, ?_, ?_⟩ <;> (repeat' split) <;> rfl

theorem enact_effects {now : Nat} {s y : Citizen} {e : WireEntry}
    (h : enactGovernment now s e = Except.ok y) :
    y._minimum.propagated = s._minimum.propagated ∧ y.window = s.window ∧
    y.head = s.head := by
  unfold enactGovernment at h
  split at h
  · exact absurd h (by simp)
  · split at h
    · exact absurd h (by simp)
    next g hg =>
      dsimp only at h
      injection h with h2
      subst h2
      refine ⟨?_, ?_, ?_⟩ <;> (repeat' split) <;> rfl

theorem commit_effects {now : Nat} {s s' : Citizen} {e : WireEntry} {top : Promise}
    (h : paxosCommit now s e top = Except.ok s') :
    s'._minimum.propagated = s._minimum.propagated ∧
    ∃ app, s'.window = s.window ++ app := by
  unfold paxosCommit at h
  split at h
  · -- re-delivery
    have hss : s' = s := by
      split at h
      · split at h
        · exact absurd h (by simp)
        · split at h
          · injection h with h2; exact h2.symm
          · exact absurd h (by simp)
      · injection h with h2; exact h2.symm
    subst hss
    exact ⟨rfl, [], by simp⟩
  · split at h
    · exact absurd h (by simp)
    · dsimp only at h
      split at h
      · exact absurd h (by simp)
      · obtain ⟨y, hy, hfin⟩ := except_bind_ok h
        injection hfin with h2
        subst h2
        obtain ⟨hp, hw, _, _⟩ := commitFinish_effects now (Monotonic.isBoundary e.promise) e y
        split at hy
        · obtain ⟨hp2, hw2, _⟩ := enact_effects hy
          exact ⟨by rw [hp, hp2], _, by rw [hw, hw2]⟩
        · injection hy with h3
          subst h3
          exact ⟨hp, _, hw⟩

theorem commitList_effects (now : Nat) :
    ∀ (es : List WireEntry) (s : Citizen) (top : Promise) (s' : Citizen),
    commitList now s top es = Except.ok s' →
    s'._minimum.propagated = s._minimum.propagated ∧
    ∃ app, s'.window = s.window ++ app := by
  intro es
  induction es with
  | nil =>
    intro s top s' h
    simp [commitList] at h
    subst h
    exact ⟨rfl, [], by simp⟩
  | cons e rest ih =>
    intro s top s' h
    simp only [commitList] at h
    obtain ⟨s1, h1, h2⟩ := except_bind_ok h
    obtain ⟨hp1, app1, hw1⟩ := commit_effects h1
    obtain ⟨hp2, app2, hw2⟩ := ih s1 _ s' h2
    exact ⟨hp2.trans hp1, ⟨app1 ++ app2, by rw [hw2, hw1, List.append_assoc]⟩⟩

theorem synchronize_effects {now : Nat} {s : Citizen} {es : List WireEntry}
    {b : Bool} {s' : Citizen} (h : paxosSynchronize now s es = Except.ok (b, s')) :
    s'._minimum.propagated = s._minimum.propagated ∧
    ∃ app, s'.window = s.window ++ app := by
  unfold paxosSynchronize at h
  split at h
  · simp at h
    obtain ⟨-, hs⟩ := h
    subst hs
    exact ⟨rfl, [], by simp⟩
  next e0 rest =>
    split at h
    · split at h
      · simp at h
        obtain ⟨-, hs⟩ := h
        subst hs
        exact ⟨rfl, [], by simp⟩
      · split at h
        · simp at h
          obtain ⟨-, hs⟩ := h
          subst hs
          exact ⟨rfl, [], by simp⟩
        · obtain ⟨s1, h1, h2⟩ := except_bind_ok h
          simp [Except.bind] at h2
          obtain ⟨-, hs⟩ := h2
          subst hs
          exact commitList_effects now _ s _ _ h1
    · obtain ⟨s1, h1, h2⟩ := except_bind_ok h
      simp [Except.bind] at h2
      obtain ⟨-, hs⟩ := h2
      subst hs
      exact commitList_effects now _ s _ _ h1

theorem shiftWhile_split :
    ∀ (w : List LogEntry) (p : Promise) (d r : List LogEntry),
    shiftWhile w p = Except.ok (d, r) →
    w = d ++ r ∧ ∀ le ∈ d, le.promise < p := by
  intro w
  induction w with
  | nil => intro p d r h; simp [shiftWhile] at h
  | cons e rest ih =>
    intro p d r h
    unfold shiftWhile at h
    split at h
    next hlt =>
      obtain ⟨⟨d2, r2⟩, h1, h2⟩ := except_bind_ok h
      simp [Except.bind] at h2
      obtain ⟨hd, hr⟩ := h2
      subst hd
      subst hr
      obtain ⟨hw, hall⟩ := ih p d2 r2 h1
      refine ⟨by simp [hw], ?_⟩
      intro le hle
      rcases List.mem_cons.mp hle with hle | hle
      · subst hle; exact hlt
      · exact hall le hle
    next hge =>
      simp at h
      obtain ⟨hd, hr⟩ := h
      subst hd
      subst hr
      exact ⟨by simp, by intro le hle; cases hle⟩

theorem recorderMsgs_effects (now : Nat) :
    ∀ (msgs : List WMsg) (s s' : Citizen),
    recorderMsgs now s msgs = Except.ok s' →
    s'._minimum.propagated = s._minimum.propagated ∧
    ∃ app, s'.window = s.window ++ app := by
  intro msgs
  induction msgs with
  | nil =>
    intro s s' h
    simp [recorderMsgs] at h
    subst h
    exact ⟨rfl, [], by simp⟩
  | cons m rest ih =>
    intro s s' h
    unfold recorderMsgs at h
    split at h
    · dsimp only at h
      have h2 := ih _ _ h
      exact ⟨h2.1, h2.2⟩
    · split at h
      · exact absurd h (by simp)
      next e he =>
        obtain ⟨s2, h2, h3⟩ := except_bind_ok h
        obtain ⟨hp2, app2, hw2⟩ := commitList_effects now _ _ _ _ h2
        obtain ⟨hp3, app3, hw3⟩ := ih _ _ h3
        exact ⟨hp3.trans hp2, ⟨app2 ++ app3, by rw [hw3, hw2, List.append_assoc]⟩⟩
    · exact ih _ _ h

theorem recorderRequest_effects {now : Nat} {s s' : Citizen} {msg : OutMessage}
    {rm : RMsg} (h : recorderRequest now s msg = Except.ok (rm, s')) :
    s'._minimum.propagated = s._minimum.propagated ∧
    ∃ app, s'.window = s.window ++ app := by
  unfold recorderRequest at h
  split at h
  · split at h
    · obtain ⟨s1, h1, h2⟩ := except_bind_ok h
      simp [Except.bind] at h2
      obtain ⟨-, hs⟩ := h2
      subst hs
      exact recorderMsgs_effects now _ s _ h1
    · simp at h
      obtain ⟨-, hs⟩ := h
      subst hs
      exact ⟨rfl, [], by simp⟩
  · simp at h
    obtain ⟨-, hs⟩ := h
    subst hs
    exact ⟨rfl, [], by simp⟩
  · simp at h
    obtain ⟨-, hs⟩ := h
    subst hs
    exact ⟨rfl, [], by simp⟩


theorem requestFinish_effects {now : Nat} {req : Request} {s2 : Citizen}
    {rep : Reply} {s4 : Citizen} (h : requestFinish now req s2 = Except.ok (rep, s4)) :
    s4._minimum.propagated = s2._minimum.propagated ∧
    ∃ app, s4.window = s2.window ++ app := by
  unfold requestFinish at h
  dsimp only at h
  split at h
  · -- bare synchronize
    simp only [Bind.bind, Except.bind] at h
    split at h
    · exact absurd h (by simp)
    · simp only [Except.ok.injEq, Prod.mk.injEq] at h
      obtain ⟨-, hs⟩ := h
      subst hs
      constructor
      · split <;> rfl
      · refine ⟨[], ?_⟩
        split <;> simp
  · obtain ⟨⟨msg, s5⟩, hrec, h2⟩ := except_bind_ok h
    dsimp only at h2
    obtain ⟨hp5, app5, hw5⟩ := recorderRequest_effects hrec
    obtain ⟨rsync, hsy, h3⟩ := except_bind_ok h2
    simp [Except.bind] at h3
    obtain ⟨-, hs⟩ := h3
    subst hs
    constructor
    · rw [hp5]
      split <;> rfl
    · refine ⟨app5, ?_⟩
      rw [hw5]
      congr 1
      split <;> rfl

theorem C2_request_truncation_safety (now : Nat) (s0 : Citizen) (req : Request)
    (rep : Reply) (s4 : Citizen)
    (h : paxosRequest now s0 req = Except.ok (rep, s4)) :
    s0._minimum.propagated ≤ s4._minimum.propagated ∧
    ∃ dropped appended, s0.window ++ appended = dropped ++ s4.window ∧
      ∀ le ∈ dropped, le.promise < s4._minimum.propagated := by
  unfold paxosRequest at h
  dsimp only at h
  generalize hA : (if s0._minimum.propagated < req.sync.minimum.propagated then
      {s0 with _minimum := {s0._minimum with propagated := req.sync.minimum.propagated}}
    else s0) = sA at h
  have hApr : s0._minimum.propagated ≤ sA._minimum.propagated := by
    rw [← hA]
    split
    next hc => exact Or.inl hc
    next => exact Or.inr rfl
  have hAw : sA.window = s0.window := by
    rw [← hA]
    split <;> rfl
  split at h
  · -- reject branch: we are ahead of the sender
    obtain ⟨rsync, hsy, h2⟩ := except_bind_ok h
    simp [Except.bind] at h2
    obtain ⟨-, hs⟩ := h2
    subst hs
    exact ⟨hApr, [], [], by simp [hAw], by intro le hle; cases hle⟩
  · obtain ⟨⟨ok1, s1⟩, hsync, h2⟩ := except_bind_ok h
    dsimp only at h2
    obtain ⟨hp1, app1, hw1⟩ := synchronize_effects hsync
    split at h2
    · -- immigration gate failed: unreachable reply
      obtain ⟨rsync, hsy, h3⟩ := except_bind_ok h2
      simp [Except.bind] at h3
      obtain ⟨-, hs⟩ := h3
      subst hs
      refine ⟨?_, [], app1, ?_, ?_⟩
      · show s0._minimum.propagated ≤ s1._minimum.propagated
        rw [hp1]
        exact hApr
      · show s0.window ++ app1 = [] ++ s1.window
        simp [hw1, hAw]
      · intro le hle
        cases hle
    · split at h2
      · -- shift branch
        obtain ⟨⟨dd, rest⟩, hsw, h3⟩ := except_bind_ok h2
        obtain ⟨hw, hall⟩ := shiftWhile_split _ _ _ _ hsw
        dsimp only at h3
        obtain ⟨hp4, app2, hw4⟩ := requestFinish_effects h3
        refine ⟨?_, dd, app1 ++ app2, ?_, ?_⟩
        · rw [hp4]
          show s0._minimum.propagated ≤ s1._minimum.propagated
          rw [hp1]
          exact hApr
        · calc s0.window ++ (app1 ++ app2)
              = (s0.window ++ app1) ++ app2 := by rw [List.append_assoc]
          _ = (sA.window ++ app1) ++ app2 := by rw [hAw]
          _ = s1.window ++ app2 := by rw [hw1]
          _ = (dd ++ rest) ++ app2 := by rw [hw]
          _ = dd ++ (rest ++ app2) := by rw [List.append_assoc]
          _ = dd ++ s4.window := by rw [hw4]
        · intro le hle
          have hlt := hall le hle
          rw [hp4]
          show le.promise < s1._minimum.propagated
          exact hlt
      · -- no-shift branch
        obtain ⟨hp4, app2, hw4⟩ := requestFinish_effects h2
        refine ⟨?_, [], app1 ++ app2, ?_, ?_⟩
        · rw [hp4]
          show s0._minimum.propagated ≤ s1._minimum.propagated
          rw [hp1]
          exact hApr
        · calc s0.window ++ (app1 ++ app2)
              = (s0.window ++ app1) ++ app2 := by rw [List.append_assoc]
          _ = (sA.window ++ app1) ++ app2 := by rw [hAw]
          _ = s1.window ++ app2 := by rw [hw1]
          _ = [] ++ s4.window := by rw [hw4]; rfl
        · intro le hle
          cases hle

/-- The concrete outcome of the benign C2 request evaluation. -/
def c2pair : Reply × Citizen := (paxosRequest 9 sL reqWrong).toOption.get (by rfl)

/-- Witness for C2: the truncation-safety theorem applied to the concrete
request `reqWrong` delivered to the leader `sL` at time 9. -/
theorem C2_request_truncation_safety_witness :
    sL._minimum.propagated ≤ c2pair.2._minimum.propagated ∧
    ∃ dropped appended, sL.window ++ appended = dropped ++ c2pair.2.window ∧
      ∀ le ∈ dropped, le.promise < c2pair.2._minimum.propagated :=
  C2_request_truncation_safety 9 sL reqWrong c2pair.1 c2pair.2 (by rfl)

/-! ### C1 -/

theorem Promise.le_of_lt {a b : Promise} (h : a < b) : a ≤ b := Or.inl h

theorem Promise.not_le_of_lt {a b : Promise} (h : a < b) : ¬ b ≤ a := by
  intro hle
  rcases hle with h2 | rfl
  · exact Promise.not_lt_of_lt h h2
  · exact Promise.lt_irrefl _ h

theorem Promise.le_p00 {p : Promise} (h : p ≤ p00) : p = p00 := by
  rcases h with h | rfl
  · rcases h with h | ⟨_, h⟩ <;> simp [p00] at h
  · rfl

/-- Well-formedness of one sync entry: a government-boundary entry carries a
government body whose promise matches the entry promise. -/
def govWF (e : WireEntry) : Bool :=
  if Monotonic.isBoundary e.promise then
    match govOf e.body with
    | some g => g.promise == e.promise
    | none => false
  else true

/-- The batch is chained onto the running top: each entry extends the
current head, advancing it by a government boundary or a minor increment. -/
def chainedFrom : Promise → List WireEntry → Bool
  | _, [] => true
  | top, e :: rest =>
    (e.previous == top) && (decide (top < e.promise)) &&
      (Monotonic.isBoundary e.promise ||
        (Monotonic.incrementMinor top == e.promise)) &&
      chainedFrom e.promise rest

/-- The head-null immigration gate of `_synchronize`: the first commit is a
government boundary whose immigrate record names this citizen. -/
def immigrationGate (s : Citizen) (e0 : WireEntry) : Bool :=
  match immigrateOf e0.body with
  | none => false
  | some im =>
    Monotonic.isBoundary e0.promise && (im.id == s.id) && (im.cookie == s.cookie)

theorem enact_ok {now : Nat} {s : Citizen} {e : WireEntry} {g : Government}
    (hlt : s.government.promise < e.promise) (hg : govOf e.body = some g) :
    ∃ y, enactGovernment now s e = Except.ok y ∧ y.government = g := by
  unfold enactGovernment
  rw [if_neg (not_not.mpr hlt), hg]
  dsimp only
  refine ⟨_, rfl, ?_⟩
  (repeat' split) <;> rfl

theorem commit_ok {now : Nat} {s : Citizen} {e : WireEntry} {top : Promise}
    (hprev : e.previous = top) (hlt : top < e.promise)
    (hinc : Monotonic.isBoundary e.promise = true ∨
      Monotonic.incrementMinor top = e.promise)
    (hgov : s.government.promise ≤ top) (hwf : govWF e = true) :
    ∃ s2, paxosCommit now s e top = Except.ok s2 ∧
      s2.window = s.window ++ [WireEntry.toLog (Monotonic.isBoundary e.promise) e] ∧
      s2.head.promise = e.promise ∧
      s2.government.promise ≤ e.promise := by
  have hgovlt : s.government.promise < e.promise := Promise.lt_of_le_of_lt hgov hlt
  unfold paxosCommit
  rw [if_neg (Promise.not_le_of_lt hlt)]
  rw [if_neg (show ¬ top ≠ e.previous from fun hne => hne hprev.symm)]
  dsimp only
  rw [if_neg (not_not.mpr hinc)]
  by_cases hb : Monotonic.isBoundary e.promise = true
  · rw [if_pos hb]
    unfold govWF at hwf
    rw [if_pos hb] at hwf
    rcases hgv : govOf e.body with _ | g <;> rw [hgv] at hwf
    · simp at hwf
    · have hgp : g.promise = e.promise := by simpa using hwf
      obtain ⟨y, hy, hygov⟩ := enact_ok hgovlt hgv
      obtain ⟨_, hyw, hyh⟩ := enact_effects hy
      rw [hy]
      obtain ⟨_, hcw, hch, hcg⟩ := commitFinish_effects now (Monotonic.isBoundary e.promise) e y
      refine ⟨_, rfl, ?_, ?_, ?_⟩
      · rw [hcw, hyw]
      · rw [hch]
        rfl
      · rw [hcg, hygov, hgp]
        exact Or.inr rfl
  · rw [if_neg hb]
    obtain ⟨_, hcw, hch, hcg⟩ := commitFinish_effects now (Monotonic.isBoundary e.promise) e s
    refine ⟨_, rfl, ?_, ?_, ?_⟩
    · rw [hcw]
    · rw [hch]
      rfl
    · rw [hcg]
      exact Promise.le_trans hgov (Promise.le_of_lt hlt)

theorem commitList_ok (now : Nat) :
    ∀ (es : List WireEntry) (s : Citizen) (top : Promise),
    chainedFrom top es = true → es.all govWF = true →
    s.government.promise ≤ top →
    ∃ s2, commitList now s top es = Except.ok s2 ∧
      s2.window = s.window ++
        es.map (fun e => WireEntry.toLog (Monotonic.isBoundary e.promise) e) := by
  intro es
  induction es with
  | nil =>
    intro s top hc hwf hg
    exact ⟨s, rfl, by simp⟩
  | cons e rest ih =>
    intro s top hc hwf hg
    unfold chainedFrom at hc
    simp only [Bool.and_eq_true, beq_iff_eq, decide_eq_true_eq, Bool.or_eq_true] at hc
    obtain ⟨⟨⟨hprev, hlt⟩, hinc⟩, hrest⟩ := hc
    simp only [List.all_cons, Bool.and_eq_true] at hwf
    obtain ⟨hwf1, hwfr⟩ := hwf
    have hinc2 : Monotonic.isBoundary e.promise = true ∨
        Monotonic.incrementMinor top = e.promise := by
      rcases hinc with h | h
      · exact Or.inl h
      · exact Or.inr h
    obtain ⟨s1, h1, h1w, h1h, h1g⟩ := commit_ok hprev hlt hinc2 hg hwf1
    obtain ⟨s2, h2, h2w⟩ := ih s1 s1.head.promise (by rw [h1h]; exact hrest)
      hwfr (by rw [h1h]; exact h1g)
    refine ⟨s2, ?_, ?_⟩
    · unfold commitList
      rw [h1]
      exact h2
    · rw [h2w, h1w]
      simp

/-- C1: the gate of `_synchronize`.  Under a well-formed batch (government
bodies carry their entry promise) on a citizen whose government promise is
bounded by its head promise: (a) with a non-null head and a batch chained
from the head, every commit is applied in order to the log; (b) with a null
head, a passing immigration gate (first commit a government boundary whose
immigrate record carries this citizen's id and cookie) and a batch chained
from the first commit's previous, every commit is applied in order; (c) with
a null head and a failing gate, `_synchronize` returns false with the state
(hence the log) unchanged; and (d) whenever `_synchronize` returns true, the
head was non-null or the immigration gate passed. -/
theorem C1_synchronize_gate (now : Nat) (s : Citizen) (e0 : WireEntry)
    (es : List WireEntry)
    (hwf : (e0 :: es).all govWF = true)
    (hgov : s.government.promise ≤ s.head.promise) :
    (s.head.promise ≠ p00 → chainedFrom s.head.promise (e0 :: es) = true →
      ∃ s2, paxosSynchronize now s (e0 :: es) = Except.ok (true, s2) ∧
        s2.window = s.window ++ (e0 :: es).map
          (fun e => WireEntry.toLog (Monotonic.isBoundary e.promise) e)) ∧
    (s.head.promise = p00 → immigrationGate s e0 = true →
      chainedFrom e0.previous (e0 :: es) = true →
      ∃ s2, paxosSynchronize now s (e0 :: es) = Except.ok (true, s2) ∧
        s2.window = s.window ++ (e0 :: es).map
          (fun e => WireEntry.toLog (Monotonic.isBoundary e.promise) e)) ∧
    (s.head.promise = p00 → immigrationGate s e0 = false →
      paxosSynchronize now s (e0 :: es) = Except.ok (false, s)) ∧
    (∀ s2, paxosSynchronize now s (e0 :: es) = Except.ok (true, s2) →
      s.head.promise ≠ p00 ∨ immigrationGate s e0 = true) := by
  refine ⟨?_, ?_, ?_, ?_⟩
  · intro hne hch
    unfold paxosSynchronize
    dsimp only
    rw [if_neg hne]
    obtain ⟨s2, hcl, hw⟩ := commitList_ok now (e0 :: es) s s.head.promise hch hwf hgov
    rw [hcl]
    exact ⟨s2, rfl, hw⟩
  · intro hhead hgate hch
    have hgp : s.government.promise = p00 := Promise.le_p00 (hhead ▸ hgov)
    unfold paxosSynchronize
    dsimp only
    rw [if_pos hhead]
    unfold immigrationGate at hgate
    rcases him : immigrateOf e0.body with _ | im <;> rw [him] at hgate
    · simp at hgate
    · simp only [Bool.and_eq_true, beq_iff_eq] at hgate
      obtain ⟨⟨hbd, hid⟩, hck⟩ := hgate
      dsimp only
      have hcond : ¬ (Monotonic.isBoundary e0.promise = false ∨
          im.id ≠ s.id ∨ im.cookie ≠ s.cookie) := by
        simp [hbd, hid, hck]
      rw [if_neg hcond]
      obtain ⟨s2, hcl, hw⟩ := commitList_ok now (e0 :: es) s e0.previous hch hwf
        (by rw [hgp]; exact p00_le _)
      rw [hcl]
      exact ⟨s2, rfl, hw⟩
  · intro hhead hgate
    unfold paxosSynchronize
    dsimp only
    rw [if_pos hhead]
    rcases him : immigrateOf e0.body with _ | im
    · rfl
    · unfold immigrationGate at hgate
      rw [him] at hgate
      dsimp only
      have hcond : Monotonic.isBoundary e0.promise = false ∨
          im.id ≠ s.id ∨ im.cookie ≠ s.cookie := by
        by_contra hcc
        push_neg at hcc
        obtain ⟨h1, h2, h3⟩ := hcc
        have h1b : Monotonic.isBoundary e0.promise = true := by
          revert h1
          cases Monotonic.isBoundary e0.promise <;> simp
        simp [h1b, h2, h3] at hgate
      rw [if_pos hcond]
  · intro s2 hrun
    by_cases hhead : s.head.promise = p00
    · right
      unfold paxosSynchronize at hrun
      dsimp only at hrun
      rw [if_pos hhead] at hrun
      rcases him : immigrateOf e0.body with _ | im <;> rw [him] at hrun
      · exact absurd hrun (by simp)
      · dsimp only at hrun
        split at hrun
        · exact absurd hrun (by simp)
        next hc =>
          push_neg at hc
          obtain ⟨h1, h2, h3⟩ := hc
          have h1b : Monotonic.isBoundary e0.promise = true := by
            revert h1
            cases Monotonic.isBoundary e0.promise <;> simp
          unfold immigrationGate
          rw [him]
          simp [h1b, h2, h3]
    · exact Or.inl hhead

/-- Witness for C1: a chained user commit `2/1` delivered to the leader
`sL`, whose head is the government entry `2/0`, is applied to the log. -/
theorem C1_synchronize_gate_witness :
    ([wireE3].all govWF = true ∧ sL.government.promise ≤ sL.head.promise ∧
      sL.head.promise ≠ p00 ∧ chainedFrom sL.head.promise [wireE3] = true) ∧
    ∃ s2, paxosSynchronize 9 sL [wireE3] = Except.ok (true, s2) ∧
      s2.window = sL.window ++ [wireE3].map
        (fun e => WireEntry.toLog (Monotonic.isBoundary e.promise) e) :=
  ⟨⟨by decide, by decide, by decide, by decide⟩,
    (C1_synchronize_gate 9 sL wireE3 [] (by decide) (by decide)).1
      (by decide) (by decide)⟩

/-! ### C4 -/

/-- Coherence of the round in flight with `_writing`: a nudge round writes
the single in-flight proposal; a response round commits the head of
`_writing` and, when a second write is piggybacked, `_writing` holds exactly
the two non-boundary proposals of the round. -/
def outCoh (w : WriterM) : Prop :=
  match w.outstanding with
  | none => True
  | some msgs =>
    (∃ w0, w.writing = [w0] ∧ msgs = [⟨"write", w0.promise, some w0.body⟩]) ∨
    (∃ w0, w.writing = [w0] ∧ msgs = [⟨"commit", w0.promise, none⟩]) ∨
    (∃ w0 w1, w.writing = [w0, w1] ∧
      msgs = [⟨"commit", w0.promise, none⟩, ⟨"write", w1.promise, some w1.body⟩] ∧
      Monotonic.isBoundary w0.promise = false ∧
      Monotonic.isBoundary w1.promise = false)

/-- The pipeline invariant of the writer. -/
def wmInv (w : WriterM) : Prop :=
  w.writing.length ≤ 2 ∧
  (∀ w0 w1, w.writing = [w0, w1] →
    Monotonic.isBoundary w0.promise = false ∧
    Monotonic.isBoundary w1.promise = false) ∧
  outCoh w

theorem reach_inv : ∀ {w : WriterM}, WriterReach w → wmInv w := by
  intro w hr
  induction hr with
  | init promised =>
    refine ⟨by simp, ?_, trivial⟩
    intro w0 w1 h
    simp at h
  | push w body hw ih =>
    obtain ⟨h1, h2, h3⟩ := ih
    exact ⟨h1, h2, h3⟩
  | unshift w pr hw ih =>
    obtain ⟨h1, h2, h3⟩ := ih
    exact ⟨h1, h2, h3⟩
  | nudge w hw ih =>
    obtain ⟨h1, h2, h3⟩ := ih
    unfold wmNudge
    split
    · refine ⟨by simp, ?_, ?_⟩
      · intro w0 w1 hww
        simp at hww
      · exact Or.inl ⟨_, rfl, rfl⟩
    · exact ⟨h1, h2, h3⟩
  | respond w w2 msgs hr2 hout hres ih =>
    obtain ⟨h1, h2, hcoh⟩ := ih
    unfold outCoh at hcoh
    rw [hout] at hcoh
    unfold wmRespond at hres
    obtain ⟨pp, props, wr, outst, snt⟩ := w
    dsimp only at hcoh hres hout
    subst hout
    rcases hcoh with ⟨w0, hww, hmm⟩ | ⟨w0, hww, hmm⟩ |
        ⟨w0, w1, hww, hmm, hb0, hb1⟩ <;> subst hww <;> subst hmm <;>
      rcases props with _ | ⟨p, ps⟩ <;>
        simp only [wmRespondMsgs, wmNudge, List.tail_cons] at hres
    · -- nudge round in flight, no queued proposal: lone commit round
      injection hres with hres
      subst hres
      exact ⟨by simp, by intro a b hab; simp at hab,
        Or.inr (Or.inl ⟨w0, rfl, rfl⟩)⟩
    · -- nudge round in flight, queued proposal: maybe piggyback
      split at hres
      next hc =>
        injection hres with hres
        subst hres
        refine ⟨by simp, ?_, Or.inr (Or.inr ⟨w0, p, rfl, rfl, hc.1, hc.2⟩)⟩
        intro a b hab
        injection hab with ha hab2
        injection hab2 with hb hab3
        subst ha
        subst hb
        exact ⟨hc.1, hc.2⟩
      next hc =>
        injection hres with hres
        subst hres
        exact ⟨by simp, by intro a b hab; simp at hab,
          Or.inr (Or.inl ⟨w0, rfl, rfl⟩)⟩
    · -- lone commit round, no queued proposal: writer drains
      injection hres with hres
      subst hres
      exact ⟨by simp, by intro a b hab; simp at hab, trivial⟩
    · -- lone commit round, queued proposal: nudge sends the next write
      injection hres with hres
      subst hres
      exact ⟨by simp, by intro a b hab; simp at hab,
        Or.inl ⟨p, rfl, rfl⟩⟩
    · -- piggyback round, no queued proposal: lone commit of the second
      injection hres with hres
      subst hres
      exact ⟨by simp, by intro a b hab; simp at hab,
        Or.inr (Or.inl ⟨w1, rfl, rfl⟩)⟩
    · -- piggyback round, queued proposal: maybe piggyback again
      split at hres
      next hc =>
        injection hres with hres
        subst hres
        refine ⟨by simp, ?_, Or.inr (Or.inr ⟨w1, p, rfl, rfl, hc.1, hc.2⟩)⟩
        intro a b hab
        injection hab with ha hab2
        injection hab2 with hb hab3
        subst ha
        subst hb
        exact ⟨hc.1, hc.2⟩
      next hc =>
        injection hres with hres
        subst hres
        exact ⟨by simp, by intro a b hab; simp at hab,
          Or.inr (Or.inl ⟨w1, rfl, rfl⟩)⟩

/-- C4: over every reachable writer history, `_writing` never holds more
than two proposals; whenever it holds two, both are non-boundary promises
(so a government proposal is always written alone); and a two-message round
in flight is a commit piggybacked with a write of the second in-flight
proposal, both non-boundary. -/
theorem C4_writer_pipeline (w : WriterM) (hr : WriterReach w) :
    w.writing.length ≤ 2 ∧
    (∀ w0 w1, w.writing = [w0, w1] →
      Monotonic.isBoundary w0.promise = false ∧
      Monotonic.isBoundary w1.promise = false) ∧
    outCoh w :=
  reach_inv hr

/-- Witness for C4: the history push-then-nudge from a fresh writer at
promise `2/0`. -/
theorem C4_writer_pipeline_witness :
    (wmNudge (wmPush ⟨⟨2, 0⟩, [], [], none, []⟩ (EBody.user "x"))).writing.length ≤ 2 ∧
    (∀ w0 w1, (wmNudge (wmPush ⟨⟨2, 0⟩, [], [], none, []⟩ (EBody.user "x"))).writing = [w0, w1] →
      Monotonic.isBoundary w0.promise = false ∧
      Monotonic.isBoundary w1.promise = false) ∧
    outCoh (wmNudge (wmPush ⟨⟨2, 0⟩, [], [], none, []⟩ (EBody.user "x"))) :=
  C4_writer_pipeline _ (WriterReach.nudge _ (WriterReach.push _ _ (WriterReach.init ⟨2, 0⟩)))
